import Mathlib

/-!
The userver engine core: socket transport and bounded MPSC queue

A shallow embedding of `engine/io/socket.cpp` (the socket transport) and of the
bounded multi-producer / single-consumer queue exercised by
`engine/mpsc_queue_test.cpp`.

* Socket operations are pure functions from the responses of the operating
  system and of the scheduler to a `Run`: the list of effects performed, in
  order, and the way the call ended.
* The queue is a state machine; every call is one atomic step on the state.
-/

namespace engine

/-- Modelled from the spec: the class `engine::Deadline` (engine/deadline.hpp is
not among the sources). An optional monotonic time point; `none` is "no
deadline", which waits indefinitely. -/
structure Deadline where
  time_point : Option Nat
  deriving DecidableEq, Repr

namespace Deadline

/-- Modelled from the spec: a deadline is reached once the clock `now` is at or
past its time point; "no deadline" is never reached. -/
def IsReached (d : Deadline) (now : Nat) : Bool :=
  match d.time_point with
  | none => false
  | some t => decide (t ≤ now)

/-- Modelled from the spec: a deadline that has already elapsed at any call
time (its time point is the origin of the clock). -/
def Passed : Deadline := ⟨some 0⟩

/-- Modelled from the spec: the default deadline of `Push` and `Pop`
("deadline=∞"). -/
def Unreachable : Deadline := ⟨none⟩

end Deadline

namespace io

/-! ## Constants of the system headers (Linux values of `errno.h`) -/

def EINTR : Int := 4
def EAGAIN : Int := 11
def EWOULDBLOCK : Int := 11
def ENONET : Int := 64
def EPROTO : Int := 71
def ENOPROTOOPT : Int := 92
def EOPNOTSUPP : Int := 95
def ENETDOWN : Int := 100
def ENETUNREACH : Int := 101
def ECONNABORTED : Int := 103
def EHOSTDOWN : Int := 112
def EHOSTUNREACH : Int := 113
def EINPROGRESS : Int := 115

/-- Modelled from the spec: `kInvalidFd` of engine/io/socket.hpp (not among the
sources), the value `Fd()` reports for a closed socket. -/
def kInvalidFd : Int := -1

/-! ## Collaborator types -/

/-- Modelled from the spec: `AddrDomain` of engine/io/addr.hpp (not among the
sources); socket.cpp only names `kInvalid`. -/
inductive AddrDomain
  | kInvalid
  | kInet
  | kInet6
  | kUnix
  deriving DecidableEq, Repr

/-- Modelled from the spec: `Addr` of engine/io/addr.hpp (not among the
sources): an address with its domain; `data` stands for the stored sockaddr. -/
structure Addr where
  domain : AddrDomain
  data : Nat
  deriving DecidableEq, Repr

/-- A default-constructed `Addr`: the state of `peername_` and `sockname_`
before they are populated. -/
def Addr.invalid : Addr := ⟨AddrDomain.kInvalid, 0⟩

/-- Modelled from the spec: `TaskContext::WakeupSource` (engine/task is not
among the sources). socket.cpp names `kDeadlineTimer`; the other two are the
remaining outcomes of a wait in the spec, "Signaled" and "Cancelled". -/
inductive WakeupSource
  | kWaitList
  | kDeadlineTimer
  | kCancelRequest
  deriving DecidableEq, Repr

/-- The exceptions socket.cpp raises. `ConnectTimeout` is the subclass of
`IoError` constructed with "connection establishment timed out";
`system_error` carries the errno value; `Cancelled` is how a cancellation point
ends the call of a cancelled task. -/
inductive Exception
  | IoError (what : String)
  | ConnectTimeout
  | system_error (code : Int)
  | Cancelled
  deriving DecidableEq, Repr

/-- Whether the exception is an `IoError`; `ConnectTimeout` derives from `IoError`. -/
def Exception.isIoError : Exception → Bool
  | Exception.IoError _ => true
  | Exception.ConnectTimeout => true
  | _ => false

/-- The two directions of a socket (`fd_control_->Read()` and `Write()`). -/
inductive DirectionKind
  | Read
  | Write
  deriving DecidableEq, Repr

/-- The enumeration `impl::TransferMode`. -/
inductive TransferMode
  | kPartial
  | kWhole
  deriving DecidableEq, Repr

/-- The transfer function handed to `PerformIo`: `&::read`, `&::write`, or the
lambda calling `::send` with the given flags. -/
inductive IoFunc
  | read
  | write
  | send (MSG_NOSIGNAL : Bool)
  deriving DecidableEq, Repr

/-- The arguments of one `Direction::PerformIo` call. -/
structure IoCall where
  dir : DirectionKind
  func : IoFunc
  len : Nat
  mode : TransferMode
  deadline : Deadline
  context : String
  peername : Addr
  deriving DecidableEq, Repr

/-- Everything an operation does that is visible outside it, in program order. -/
inductive Effect
  | CancellationPoint
  | Lock (dir : DirectionKind)
  | sys_socket (nonblock : Bool)
  | sys_connect (fd : Int)
  | sys_accept (fd : Int) (accept4 : Bool)
  | sys_getsockopt (fd : Int)
  | WaitReadable (deadline : Deadline)
  | WaitWriteable (deadline : Deadline)
  | sys_setsockopt (fd layer optname optval : Int)
  | sys_bind (fd : Int)
  | sys_listen (fd backlog : Int)
  | sys_getpeername (fd : Int)
  | sys_getsockname (fd : Int)
  | LOG_ERROR
  | Invalidate (fd : Int)
  deriving DecidableEq, Repr

/-- How a call ended: it returned a value, it threw, (for the accept loop, run
against a finite script of responses) it is still inside its loop, or an
`assert` of the source failed and the process aborted. -/
inductive Outcome (α : Type)
  | returned (a : α)
  | threw (e : Exception)
  | running
  | aborted
  deriving DecidableEq, Repr

/-- The effects of a call and how it ended. -/
structure Run (α : Type) where
  trace : List Effect
  outcome : Outcome α
  deriving DecidableEq, Repr

/-- The run `r` preceded by the effects `pre`. -/
def Run.after {α : Type} (pre : List Effect) (r : Run α) : Run α :=
  ⟨pre ++ r.trace, r.outcome⟩

/-- The macro-conditional parts of socket.cpp (`#ifdef`). -/
structure BuildConfig where
  SOCK_NONBLOCK : Bool
  MSG_NOSIGNAL : Bool
  HAVE_ACCEPT4 : Bool
  deriving DecidableEq, Repr

/-- The return value of a system call and the `errno` it left. -/
structure SyscallResult where
  ret : Int
  errno : Int
  deriving DecidableEq, Repr

/-- Modelled from the spec: `utils::CheckSyscall` (utils/check_syscall.hpp is not
among the sources): a return value of -1 surfaces as a `SystemError` carrying
the OS error code, any other return value is passed through. -/
def CheckSyscall (r : SyscallResult) : Except Exception Int :=
  if r.ret = -1 then Except.error (Exception.system_error r.errno) else Except.ok r.ret

/-! ## Socket -/

/-- The class `Socket`: `fd_control_` is the owning pointer to the control block adopted
from the descriptor (`none` is the null pointer), with the two memoized
addresses. -/
structure Socket where
  fd_control_ : Option Int
  peername_ : Addr
  sockname_ : Addr
  deriving DecidableEq, Repr

namespace Socket

/-- The constructor `Socket::Socket(int fd)`. -/
def ofFd (fd : Int) : Socket := ⟨some fd, Addr.invalid, Addr.invalid⟩

/-- The method `Socket::IsOpen`. -/
def IsOpen (s : Socket) : Bool := s.fd_control_.isSome

/-- The method `Socket::Fd`. -/
def Fd (s : Socket) : Int :=
  match s.fd_control_ with
  | some fd => fd
  | none => kInvalidFd

/-- The method `Socket::RecvSome`; `PerformIo` is `Direction::PerformIo`, whose code is
not among the sources. -/
def RecvSome (PerformIo : IoCall → Run Nat) (s : Socket) (len : Nat)
    (deadline : Deadline) : Run Nat :=
  if !s.IsOpen then
    ⟨[], Outcome.threw (Exception.IoError ("Attempt to Recv from closed socket"))⟩
  else
    (PerformIo ⟨DirectionKind.Read, IoFunc.read, len, TransferMode.kPartial, deadline,
      ("Recv from "), s.peername_⟩).after [Effect.Lock DirectionKind.Read]

/-- The method `Socket::RecvAll`. -/
def RecvAll (PerformIo : IoCall → Run Nat) (s : Socket) (len : Nat)
    (deadline : Deadline) : Run Nat :=
  if !s.IsOpen then
    ⟨[], Outcome.threw (Exception.IoError ("Attempt to RecvAll from closed socket"))⟩
  else
    (PerformIo ⟨DirectionKind.Read, IoFunc.read, len, TransferMode.kWhole, deadline,
      ("RecvAll from "), s.peername_⟩).after [Effect.Lock DirectionKind.Read]

/-- The `send_func` of `Socket::SendAll`. -/
def send_func (cfg : BuildConfig) : IoFunc :=
  if cfg.MSG_NOSIGNAL then IoFunc.send true else IoFunc.write

/-- The method `Socket::SendAll`. -/
def SendAll (cfg : BuildConfig) (PerformIo : IoCall → Run Nat) (s : Socket) (len : Nat)
    (deadline : Deadline) : Run Nat :=
  if !s.IsOpen then
    ⟨[], Outcome.threw (Exception.IoError ("Attempt to Send to closed socket"))⟩
  else
    (PerformIo ⟨DirectionKind.Write, send_func cfg, len, TransferMode.kWhole, deadline,
      ("Send to "), s.peername_⟩).after [Effect.Lock DirectionKind.Write]

end Socket

/-- One iteration of the loop of `Socket::Accept` as the environment answers
it: the return value of `accept4`/`accept`, the `errno` it left, the address it
stored in `buf`, and the wakeup source the task context reports should this
iteration wait. -/
structure AcceptRound where
  fd : Int
  errno : Int
  addr : Addr
  wakeup : WakeupSource
  deriving DecidableEq, Repr

/-- The errno values of the retry cases of the `switch` in `Socket::Accept`. -/
def acceptRetryErrnos : List Int :=
  [ECONNABORTED, EINTR, ENETDOWN, EPROTO, ENOPROTOOPT, EHOSTDOWN, ENONET, EHOSTUNREACH,
    EOPNOTSUPP, ENETUNREACH]

/-- The `for (;;)` loop of `Socket::Accept` on the listening descriptor
`dirFd`, run against the responses `script`; when the script is used up the
loop is still running. -/
def AcceptLoop (cfg : BuildConfig) (dirFd : Int) (deadline : Deadline) :
    List AcceptRound → Run Socket
  | [] => ⟨[], Outcome.running⟩
  | r :: rest =>
    if r.fd ≠ -1 then
      ⟨[Effect.sys_accept dirFd cfg.HAVE_ACCEPT4],
        Outcome.returned { Socket.ofFd r.fd with peername_ := r.addr }⟩
    else if r.errno = EAGAIN ∨ r.errno = EWOULDBLOCK then
      if r.wakeup = WakeupSource.kDeadlineTimer then
        ⟨[Effect.sys_accept dirFd cfg.HAVE_ACCEPT4, Effect.WaitReadable deadline],
          Outcome.threw Exception.ConnectTimeout⟩
      else
        (AcceptLoop cfg dirFd deadline rest).after
          [Effect.sys_accept dirFd cfg.HAVE_ACCEPT4, Effect.WaitReadable deadline]
    else if r.errno ∈ acceptRetryErrnos then
      (AcceptLoop cfg dirFd deadline rest).after [Effect.sys_accept dirFd cfg.HAVE_ACCEPT4]
    else
      match CheckSyscall ⟨-1, r.errno⟩ with
      | Except.error e => ⟨[Effect.sys_accept dirFd cfg.HAVE_ACCEPT4], Outcome.threw e⟩
      | Except.ok _ =>
        (AcceptLoop cfg dirFd deadline rest).after [Effect.sys_accept dirFd cfg.HAVE_ACCEPT4]

/-- The method `Socket::Accept`. `cancelled` is whether a cancellation of the calling task
is pending when it reaches `current_task::CancellationPoint()`. -/
def Socket.Accept (cfg : BuildConfig) (cancelled : Bool) (s : Socket) (deadline : Deadline)
    (script : List AcceptRound) : Run Socket :=
  if !s.IsOpen then
    ⟨[], Outcome.threw (Exception.IoError ("Attempt to Accept from closed socket"))⟩
  else if cancelled then
    ⟨[Effect.CancellationPoint], Outcome.threw Exception.Cancelled⟩
  else
    (AcceptLoop cfg s.Fd deadline script).after
      [Effect.CancellationPoint, Effect.Lock DirectionKind.Read]

/-- The responses `Connect` receives: whether cancellation is pending at its
cancellation point, the results of `::socket` and `::connect`, the wakeup
source after `WaitWriteable`, the result of `::getsockopt` and the value of
`SO_ERROR` it stored. -/
structure ConnectEnv where
  cancelled : Bool
  socket : SyscallResult
  connect : SyscallResult
  wakeup : WakeupSource
  getsockopt : SyscallResult
  so_error : Int
  deriving DecidableEq, Repr

/-- The call `Socket::GetOption(SOL_SOCKET, SO_ERROR)`: the stored value, unless
`::getsockopt` fails. `Connect` makes the call on the socket it has just
created, which is open, so the `assert(IsOpen())` of the method holds there. -/
def GetOption (r : SyscallResult) (value : Int) : Except Exception Int :=
  match CheckSyscall r with
  | Except.error e => Except.error e
  | Except.ok _ => Except.ok value

/-- The tail of `Connect`: `if (err_value) throw std::system_error(...)`,
otherwise `return socket`. -/
def ConnectFinish (trace : List Effect) (err_value : Int) (socket : Socket) : Run Socket :=
  if err_value ≠ 0 then ⟨trace, Outcome.threw (Exception.system_error err_value)⟩
  else ⟨trace, Outcome.returned socket⟩

/-- The function `Connect(Addr, Deadline)`, with `MakeSocket` inlined. -/
def Connect (cfg : BuildConfig) (env : ConnectEnv) (deadline : Deadline) : Run Socket :=
  if env.cancelled then
    ⟨[Effect.CancellationPoint], Outcome.threw Exception.Cancelled⟩
  else
    match CheckSyscall env.socket with
    | Except.error e =>
      ⟨[Effect.CancellationPoint, Effect.sys_socket cfg.SOCK_NONBLOCK], Outcome.threw e⟩
    | Except.ok fd =>
      let socket := Socket.ofFd fd
      let started :=
        [Effect.CancellationPoint, Effect.sys_socket cfg.SOCK_NONBLOCK,
          Effect.sys_connect socket.Fd]
      if env.connect.ret = 0 then
        ⟨started, Outcome.returned socket⟩
      else if env.connect.errno = EINPROGRESS then
        if env.wakeup = WakeupSource.kDeadlineTimer then
          ⟨started ++ [Effect.WaitWriteable deadline], Outcome.threw Exception.ConnectTimeout⟩
        else
          match GetOption env.getsockopt env.so_error with
          | Except.error e =>
            ⟨started ++ [Effect.WaitWriteable deadline, Effect.sys_getsockopt socket.Fd],
              Outcome.threw e⟩
          | Except.ok err_value =>
            ConnectFinish
              (started ++ [Effect.WaitWriteable deadline, Effect.sys_getsockopt socket.Fd])
              err_value socket
      else
        ConnectFinish started env.connect.errno socket

/-! ## Listen, socket options, memoized addresses, teardown -/

/-- The constants `SOL_SOCKET`, `SO_REUSEADDR` and `SO_REUSEPORT` of the system
headers (Linux values). -/
def SOL_SOCKET : Int := 1

def SO_REUSEADDR : Int := 2

def SO_REUSEPORT : Int := 15

/-- Sequencing of two parts of a function body: the second part runs on the
value the first returned; an exception of the first part ends the whole. -/
def Run.andThen {α β : Type} (r : Run α) (k : α → Run β) : Run β :=
  match r.outcome with
  | Outcome.returned a => (k a).after r.trace
  | Outcome.threw e => ⟨r.trace, Outcome.threw e⟩
  | Outcome.running => ⟨r.trace, Outcome.running⟩
  | Outcome.aborted => ⟨r.trace, Outcome.aborted⟩

/-- Modelled from the spec: `current_task::CancellationPoint()` (engine/task is
not among the sources): "a defined location in an operation where pending
external cancellation is checked before proceeding"; a cancellation that is
pending is "propagated", so the operation goes no further. `Socket.Accept` and
`Connect` above have this behaviour written out. -/
def CancellationPoint (cancelled : Bool) : Run Unit :=
  if cancelled then ⟨[Effect.CancellationPoint], Outcome.threw Exception.Cancelled⟩
  else ⟨[Effect.CancellationPoint], Outcome.returned ()⟩

/-- The function `MakeSocket`: `Socket(utils::CheckSyscall(::socket(...)))`. -/
def MakeSocket (cfg : BuildConfig) (r : SyscallResult) : Run Socket :=
  match CheckSyscall r with
  | Except.error e => ⟨[Effect.sys_socket cfg.SOCK_NONBLOCK], Outcome.threw e⟩
  | Except.ok fd => ⟨[Effect.sys_socket cfg.SOCK_NONBLOCK], Outcome.returned (Socket.ofFd fd)⟩

/-- A system call whose result goes through `utils::CheckSyscall` and whose
return value is not used. -/
def CheckedCall (call : Effect) (r : SyscallResult) : Run Unit :=
  match CheckSyscall r with
  | Except.error e => ⟨[call], Outcome.threw e⟩
  | Except.ok _ => ⟨[call], Outcome.returned ()⟩

/-- The method `Socket::SetOption`: `assert(IsOpen())`, then
`utils::CheckSyscall(::setsockopt(...))`; `r` is the result of `::setsockopt`. -/
def Socket.SetOption (s : Socket) (layer optname optval : Int) (r : SyscallResult) :
    Run Unit :=
  if !s.IsOpen then ⟨[], Outcome.aborted⟩
  else CheckedCall (Effect.sys_setsockopt s.Fd layer optname optval) r

/-- The responses `Listen` receives: whether cancellation is pending at its
cancellation point and the results of `::socket`, of the two `::setsockopt`
calls, of `::bind` and of `::listen`. -/
structure ListenEnv where
  cancelled : Bool
  socket : SyscallResult
  reuseaddr : SyscallResult
  reuseport : SyscallResult
  bind : SyscallResult
  listen : SyscallResult
  deriving DecidableEq, Repr

/-- The function `Listen(Addr, int backlog)`; `have_SO_REUSEPORT` is whether the
build defines `SO_REUSEPORT` (`#ifdef SO_REUSEPORT`). -/
def Listen (cfg : BuildConfig) (have_SO_REUSEPORT : Bool) (env : ListenEnv) (backlog : Int) :
    Run Socket :=
  (CancellationPoint env.cancelled).andThen fun _ =>
  (MakeSocket cfg env.socket).andThen fun socket =>
  (socket.SetOption SOL_SOCKET SO_REUSEADDR 1 env.reuseaddr).andThen fun _ =>
  (if have_SO_REUSEPORT then socket.SetOption SOL_SOCKET SO_REUSEPORT 1 env.reuseport
    else ⟨[Effect.LOG_ERROR], Outcome.returned ()⟩).andThen fun _ =>
  (CheckedCall (Effect.sys_bind socket.Fd) env.bind).andThen fun _ =>
  (CheckedCall (Effect.sys_listen socket.Fd backlog) env.listen).andThen fun _ =>
  ⟨[], Outcome.returned socket⟩

/-- The two getters `MemoizeAddr` is used with: `&::getpeername` and
`&::getsockname`. -/
inductive AddrGetter
  | getpeername
  | getsockname
  deriving DecidableEq, Repr

/-- The effect of calling a getter on the descriptor `fd`. -/
def AddrGetter.call (g : AddrGetter) (fd : Int) : Effect :=
  match g with
  | AddrGetter.getpeername => Effect.sys_getpeername fd
  | AddrGetter.getsockname => Effect.sys_getsockname fd

/-- The response to one getter call: its return value and `errno`, and the
address `Addr(buf, 0, 0)` built from what it stored in `buf`. -/
structure GetterEnv where
  result : SyscallResult
  addr : Addr
  deriving DecidableEq, Repr

/-- The function template `MemoizeAddr`: the getter is called only while
`addr.Domain() == AddrDomain::kInvalid`; the first component is the new value
of the memoized address, which is assigned only after `CheckSyscall` passed. -/
def MemoizeAddr (addr : Addr) (getter : AddrGetter) (socket : Socket) (env : GetterEnv) :
    Addr × Run Addr :=
  if addr.domain = AddrDomain.kInvalid then
    match CheckSyscall env.result with
    | Except.error e => (addr, ⟨[getter.call socket.Fd], Outcome.threw e⟩)
    | Except.ok _ => (env.addr, ⟨[getter.call socket.Fd], Outcome.returned env.addr⟩)
  else (addr, ⟨[], Outcome.returned addr⟩)

/-- The method `Socket::Getpeername`: the socket afterwards and the run.
`assert(IsOpen())` comes first: on a closed socket the assertion fails before
any getter call. -/
def Socket.Getpeername (s : Socket) (env : GetterEnv) : Socket × Run Addr :=
  if !s.IsOpen then (s, ⟨[], Outcome.aborted⟩)
  else
    ({ s with peername_ := (MemoizeAddr s.peername_ AddrGetter.getpeername s env).1 },
      (MemoizeAddr s.peername_ AddrGetter.getpeername s env).2)

/-- The method `Socket::Getsockname`: the socket afterwards and the run.
`assert(IsOpen())` comes first: on a closed socket the assertion fails before
any getter call. -/
def Socket.Getsockname (s : Socket) (env : GetterEnv) : Socket × Run Addr :=
  if !s.IsOpen then (s, ⟨[], Outcome.aborted⟩)
  else
    ({ s with sockname_ := (MemoizeAddr s.sockname_ AddrGetter.getsockname s env).1 },
      (MemoizeAddr s.sockname_ AddrGetter.getsockname s env).2)

/-- One call of `Getpeername` or `Getsockname`. -/
def Socket.Getname (s : Socket) (getter : AddrGetter) (env : GetterEnv) : Socket × Run Addr :=
  match getter with
  | AddrGetter.getpeername => s.Getpeername env
  | AddrGetter.getsockname => s.Getsockname env

/-- The memoized address a getter fills: `peername_` or `sockname_`. -/
def Socket.memo (s : Socket) (getter : AddrGetter) : Addr :=
  match getter with
  | AddrGetter.getpeername => s.peername_
  | AddrGetter.getsockname => s.sockname_

/-- Consecutive `Getpeername`/`Getsockname` calls on one socket, in any mix,
with their runs in order. -/
def Socket.GetnameMany (s : Socket) : List (AddrGetter × GetterEnv) → Socket × List (Run Addr)
  | [] => (s, [])
  | c :: cs =>
    ((Socket.GetnameMany (s.Getname c.1 c.2).1 cs).1,
      (s.Getname c.1 c.2).2 :: (Socket.GetnameMany (s.Getname c.1 c.2).1 cs).2)

/-- The number of calls of `getter` in a list of effects. -/
def getterCalls (getter : AddrGetter) (fd : Int) (trace : List Effect) : Nat :=
  trace.count (getter.call fd)

/-- The method `Socket::Close`: `fd_control_.reset()`. -/
def Socket.Close (s : Socket) : Socket := { s with fd_control_ := none }

/-- The method `Socket::Release`: `fd = Fd()`, then on an open socket
`fd_control_.release()->Invalidate()`; returns `fd`. The first component is the
socket afterwards. -/
def Socket.Release (s : Socket) : Socket × Run Int :=
  if s.IsOpen then
    ({ s with fd_control_ := none }, ⟨[Effect.Invalidate s.Fd], Outcome.returned s.Fd⟩)
  else (s, ⟨[], Outcome.returned s.Fd⟩)

/-- Whether an effect is a wait on a direction (the only place a deadline is
consulted). -/
def Effect.isWait : Effect → Bool
  | Effect.WaitReadable _ => true
  | Effect.WaitWriteable _ => true
  | _ => false

/-- Whether an effect is an accept attempt. -/
def Effect.isAccept : Effect → Bool
  | Effect.sys_accept _ _ => true
  | _ => false

end io

/-! ## Bounded multi-producer / single-consumer queue

engine/mpsc_queue.hpp is not among the sources (only its test file is), so the
queue is modelled from the spec. Each call is one atomic step on the queue
state ("evaluated atomically ... under a single internal lock"). A producer
that cannot be admitted at once is recorded in the wait list together with the
value it holds; the operations that wake producers (a pop, a capacity increase,
consumer death) re-evaluate the waiters in the order in which they blocked and
complete the calls of those whose evaluation no longer says "wait". -/

/-- Modelled from the spec: one entry of the "wait list of blocked pushers" of
`BoundedQueue<T>`: the suspended task, the value it is pushing, the per-call
limit of `PushWithLimitOverride` (`none` for `Push`, which uses the current
`L`) and its deadline. -/
structure BlockedPush (T : Type) where
  task : Nat
  value : T
  override_limit : Option Nat
  deadline : Deadline
  deriving DecidableEq, Repr

/-- Modelled from the spec: the state of `BoundedQueue<T>` (engine/mpsc_queue.hpp
is not among the sources): the ordered entries, the size counter `n`, the
capacity limit `L`, `producers_alive`, `consumer_alive`, the wait list of
blocked pushers and the wait list for the blocked popper (at most one).
`producers_dead` records that the producer count has been brought to zero by
dropping the last producer handle, which is the terminal condition
"`producers_alive == 0`" of the spec: the test `Block` pops before any producer
handle has been created and expects that pop to wait, not to fail.
Likewise `consumer_alive` is false only once the consumer handle has been
dropped: the test `QueueCleanUp` pushes successfully with no consumer handle
ever created. -/
structure BoundedQueue (T : Type) where
  entries : List T
  n : Nat
  L : Nat
  producers_alive : Nat
  producers_dead : Bool
  consumer_alive : Bool
  blocked_pushers : List (BlockedPush T)
  blocked_popper : Option Deadline
  deriving DecidableEq, Repr

/-- Modelled from the spec: the result of a push call, `true`/`false`, or the
call suspended on the producer wait list. -/
inductive PushResult
  | returned (ok : Bool)
  | suspended
  deriving DecidableEq, Repr

/-- Modelled from the spec: the result of a pop call: `returned (some v)` is
`true` with `out = v`, `returned none` is `false`; or the call suspended. -/
inductive PopResult (T : Type)
  | returned (out : Option T)
  | suspended
  deriving DecidableEq, Repr

/-- Modelled from the spec: what re-evaluating a push says: admit the value,
fail the call, or (keep) wait(ing). -/
inductive Verdict
  | enqueue
  | fail
  | wait
  deriving DecidableEq, Repr

/-- Modelled from the spec: a suspended push call that a wake completed: its
task, its value and the boolean it returned. -/
structure Done (T : Type) where
  task : Nat
  value : T
  ok : Bool
  deriving DecidableEq, Repr

/-- Modelled from the spec: the outcome of one atomic step: the new queue
state, the result of the call itself, and the suspended push calls the step
woke and completed, in order. -/
structure Step (T R : Type) where
  queue : BoundedQueue T
  result : R
  woken : List (Done T)

/-- Modelled from the spec: the result of re-evaluating the wait list: the
waiters still blocked, the queue, and the completed calls. -/
structure Woken (T : Type) where
  still_blocked : List (BlockedPush T)
  queue : BoundedQueue T
  done : List (Done T)

namespace BoundedQueue

variable {T : Type}

/-- Modelled from the spec: `Create(initial_capacity)`: an empty queue with no
handle taken yet and nobody blocked. -/
def Create (initial_capacity : Nat) : BoundedQueue T :=
  ⟨[], 0, initial_capacity, 0, false, true, [], none⟩

/-- Modelled from the spec: `Size() -> n`. -/
def Size (q : BoundedQueue T) : Nat := q.n

/-- Modelled from the spec: the admission logic of `Push`: "fails immediately
(`false`) if `consumer_alive==false`. Otherwise, while `n >= effective_limit`
... suspends ...; if the deadline elapses first, returns `false`". The
effective limit is the current `L`, or the per-call limit of
`PushWithLimitOverride` "in place of `L`". -/
def Evaluate (q : BoundedQueue T) (override_limit : Option Nat) (deadline_reached : Bool) :
    Verdict :=
  if !q.consumer_alive then Verdict.fail
  else if q.n < override_limit.getD q.L then Verdict.enqueue
  else if deadline_reached then Verdict.fail
  else Verdict.wait

/-- Modelled from the spec: "On success, appends the value, increments `n`"
(waking the blocked consumer changes no queue state: the consumer re-checks the
queue when it resumes, see `ResumePop`). -/
def DoPush (q : BoundedQueue T) (v : T) : BoundedQueue T :=
  { q with entries := q.entries ++ [v], n := q.n + 1 }

/-- Modelled from the spec: the common body of `Push` and
`PushWithLimitOverride` called by `task` at time `now`. -/
def PushImpl (q : BoundedQueue T) (now task : Nat) (v : T) (override_limit : Option Nat)
    (deadline : Deadline) : Step T PushResult :=
  match Evaluate q override_limit (deadline.IsReached now) with
  | Verdict.enqueue => ⟨DoPush q v, PushResult.returned true, []⟩
  | Verdict.fail => ⟨q, PushResult.returned false, []⟩
  | Verdict.wait =>
    ⟨{ q with blocked_pushers := q.blocked_pushers ++ [⟨task, v, override_limit, deadline⟩] },
      PushResult.suspended, []⟩

/-- Modelled from the spec: `Push(value, deadline)`. -/
def Push (q : BoundedQueue T) (now task : Nat) (v : T) (deadline : Deadline) :
    Step T PushResult :=
  PushImpl q now task v none deadline

/-- Modelled from the spec: `PushWithLimitOverride(value, override_limit)`:
"identical to `Push` except the admission test uses ... `override_limit` in
place of `L`". -/
def PushWithLimitOverride (q : BoundedQueue T) (now task : Nat) (v : T) (max_len : Nat)
    (deadline : Deadline) : Step T PushResult :=
  PushImpl q now task v (some max_len) deadline

/-- Modelled from the spec: `PushNoblock(value)`: "equivalent to `Push` with an
already-elapsed deadline". -/
def PushNoblock (q : BoundedQueue T) (task : Nat) (v : T) : Step T PushResult :=
  Push q 0 task v Deadline.Passed

/-- Modelled from the spec: re-evaluation of the blocked producers "in FIFO
order of blocking", each against the queue as the earlier ones left it. With
`all` every waiter is re-evaluated (`SetMaxLength`, consumer death); without
it the scan stops at the first waiter admitted ("wakes the highest-priority
blocked producer whose admission test now passes"). -/
def WakeScan (all : Bool) : List (BlockedPush T) → BoundedQueue T → Woken T
  | [], q => ⟨[], q, []⟩
  | w :: ws, q =>
    match Evaluate q w.override_limit false with
    | Verdict.enqueue =>
      if all then
        let r := WakeScan all ws (DoPush q w.value)
        ⟨r.still_blocked, r.queue, ⟨w.task, w.value, true⟩ :: r.done⟩
      else
        ⟨ws, DoPush q w.value, [⟨w.task, w.value, true⟩]⟩
    | Verdict.fail =>
      let r := WakeScan all ws q
      ⟨r.still_blocked, r.queue, ⟨w.task, w.value, false⟩ :: r.done⟩
    | Verdict.wait =>
      let r := WakeScan all ws q
      ⟨w :: r.still_blocked, r.queue, r.done⟩

/-- Modelled from the spec: wake the blocked producers of `q`. -/
def WakeProducers (all : Bool) (q : BoundedQueue T) : BoundedQueue T × List (Done T) :=
  let r := WakeScan all q.blocked_pushers q
  ({ r.queue with blocked_pushers := r.still_blocked }, r.done)

/-- Modelled from the spec: `Pop(out, deadline)` called at time `now`: "if an
entry exists, dequeues it (decrementing `n`), returns `true`, and wakes the
highest-priority blocked producer whose admission test now passes. If no entry
exists and `producers_alive==0`, returns `false` immediately ... Otherwise
suspends until an entry arrives, a deadline elapses (returns `false`) ...". -/
def Pop (q : BoundedQueue T) (now : Nat) (deadline : Deadline) : Step T (PopResult T) :=
  match q.entries with
  | v :: rest =>
    let w := WakeProducers false { q with entries := rest, n := q.n - 1 }
    ⟨w.1, PopResult.returned (some v), w.2⟩
  | [] =>
    if q.producers_dead then ⟨q, PopResult.returned none, []⟩
    else if deadline.IsReached now then ⟨q, PopResult.returned none, []⟩
    else ⟨{ q with blocked_popper := some deadline }, PopResult.suspended, []⟩

/-- Modelled from the spec: `PopNoblock(out)`: "non-suspending variant; `false`
if empty regardless of producer liveness". -/
def PopNoblock (q : BoundedQueue T) : Step T (PopResult T) :=
  Pop q 0 Deadline.Passed

/-- Modelled from the spec: the suspended consumer resumes at time `now` (an
entry arrived, its deadline elapsed, or the last producer died) and
re-evaluates its `Pop`; with no consumer suspended nothing happens. -/
def ResumePop (q : BoundedQueue T) (now : Nat) : Option (Step T (PopResult T)) :=
  match q.blocked_popper with
  | none => none
  | some deadline => some (Pop { q with blocked_popper := none } now deadline)

/-- Modelled from the spec: `SetMaxLength(L')`: "atomically replaces `L`; if
`L'` increases, re-evaluates and wakes every blocked producer whose admission
test now passes, in FIFO order of blocking". -/
def SetMaxLength (q : BoundedQueue T) (L' : Nat) : BoundedQueue T × List (Done T) :=
  if q.L < L' then WakeProducers true { q with L := L' }
  else ({ q with L := L' }, [])

/-- Modelled from the spec: `GetProducer()`: "constructing a handle increments
the corresponding liveness counter". -/
def GetProducer (q : BoundedQueue T) : BoundedQueue T :=
  { q with producers_alive := q.producers_alive + 1 }

/-- Modelled from the spec: a producer handle is destroyed: "destroying the
last handle of a kind decrements it to zero", after which no more data will
ever arrive. -/
def DropProducer (q : BoundedQueue T) : BoundedQueue T :=
  if q.producers_alive = 0 then q
  else if q.producers_alive = 1 then { q with producers_alive := 0, producers_dead := true }
  else { q with producers_alive := q.producers_alive - 1 }

/-- Modelled from the spec: the consumer handle is destroyed: "consumer
destruction wakes blocked pushers with failure". -/
def DropConsumer (q : BoundedQueue T) : BoundedQueue T × List (Done T) :=
  WakeProducers true { q with consumer_alive := false, blocked_popper := none }

/-- Modelled from the spec: the deadline timers of the blocked producers fire
at time `now`: a push whose deadline has elapsed "returns `false` without
enqueuing" and leaves the wait list. -/
def DeadlineTimer (q : BoundedQueue T) (now : Nat) : BoundedQueue T × List (Done T) :=
  ({ q with blocked_pushers := q.blocked_pushers.filter (fun w => !w.deadline.IsReached now) },
    (q.blocked_pushers.filter (fun w => w.deadline.IsReached now)).map
      (fun w => ⟨w.task, w.value, false⟩))

end BoundedQueue

/-- Modelled from the spec: the calls and events a queue can receive. -/
inductive Op (T : Type)
  | Push (now task : Nat) (v : T) (deadline : Deadline)
  | PushNoblock (task : Nat) (v : T)
  | PushWithLimitOverride (now task : Nat) (v : T) (max_len : Nat) (deadline : Deadline)
  | Pop (now : Nat) (deadline : Deadline)
  | PopNoblock
  | ResumePop (now : Nat)
  | SetMaxLength (L' : Nat)
  | GetProducer
  | DropProducer
  | DropConsumer
  | DeadlineTimer (now : Nat)
  deriving DecidableEq, Repr

/-- What the callers of the queue observe, in order: a push by `task` of `v`
returned `ok` or suspended; a pop returned (`some v`: true with the value,
`none`: false) or suspended. -/
inductive Event (T : Type)
  | push_returned (task : Nat) (v : T) (ok : Bool)
  | push_suspended (task : Nat) (v : T)
  | pop_returned (out : Option T)
  | pop_suspended
  deriving DecidableEq, Repr

namespace BoundedQueue

variable {T : Type}

/-- The event of a woken push call completing. -/
def doneEvent (d : Done T) : Event T := Event.push_returned d.task d.value d.ok

/-- The events of a push step. -/
def pushEvents (task : Nat) (v : T) (s : Step T PushResult) : BoundedQueue T × List (Event T) :=
  (s.queue,
    (match s.result with
      | PushResult.returned ok => Event.push_returned task v ok
      | PushResult.suspended => Event.push_suspended task v) :: s.woken.map doneEvent)

/-- The events of a pop step. -/
def popEvents (s : Step T (PopResult T)) : BoundedQueue T × List (Event T) :=
  (s.queue,
    (match s.result with
      | PopResult.returned out => Event.pop_returned out
      | PopResult.suspended => Event.pop_suspended) :: s.woken.map doneEvent)

/-- One call or event applied to the queue, with what the callers observe. -/
def step (q : BoundedQueue T) : Op T → BoundedQueue T × List (Event T)
  | Op.Push now task v deadline => pushEvents task v (q.Push now task v deadline)
  | Op.PushNoblock task v => pushEvents task v (q.PushNoblock task v)
  | Op.PushWithLimitOverride now task v max_len deadline =>
    pushEvents task v (q.PushWithLimitOverride now task v max_len deadline)
  | Op.Pop now deadline => popEvents (q.Pop now deadline)
  | Op.PopNoblock => popEvents q.PopNoblock
  | Op.ResumePop now =>
    match q.ResumePop now with
    | none => (q, [])
    | some s => popEvents s
  | Op.SetMaxLength L' => ((q.SetMaxLength L').1, (q.SetMaxLength L').2.map doneEvent)
  | Op.GetProducer => (q.GetProducer, [])
  | Op.DropProducer => (q.DropProducer, [])
  | Op.DropConsumer => (q.DropConsumer.1, q.DropConsumer.2.map doneEvent)
  | Op.DeadlineTimer now => ((q.DeadlineTimer now).1, (q.DeadlineTimer now).2.map doneEvent)

/-- A sequence of calls and events applied in order. -/
def run (q : BoundedQueue T) : List (Op T) → BoundedQueue T × List (Event T)
  | [] => (q, [])
  | op :: ops => ((run (q.step op).1 ops).1, (q.step op).2 ++ (run (q.step op).1 ops).2)

/-- The values admitted to the queue, in admission order: those of the push
calls that returned true. -/
def admitted : List (Event T) → List T
  | [] => []
  | Event.push_returned _ v true :: es => v :: admitted es
  | _ :: es => admitted es

/-- The values handed to the consumer, in order: those of the pop calls that
returned true. -/
def popped : List (Event T) → List T
  | [] => []
  | Event.pop_returned (some v) :: es => v :: popped es
  | _ :: es => popped es

/-- Consecutive `Pop` calls, one per `(now, deadline)` pair, with their results
in order. -/
def PopMany (q : BoundedQueue T) : List (Nat × Deadline) → BoundedQueue T × List (PopResult T)
  | [] => (q, [])
  | c :: cs =>
    ((PopMany (q.Pop c.1 c.2).queue cs).1,
      (q.Pop c.1 c.2).result :: (PopMany (q.Pop c.1 c.2).queue cs).2)

/-- Whether a blocked push is a `PushWithLimitOverride` with the per-call
limit `m`. -/
def hasLimit (m : Nat) (w : BlockedPush T) : Bool := decide (w.override_limit = some m)

end BoundedQueue

namespace io

/-! ## Socket transport: lemmas -/

theorem Run.after_outcome {α : Type} (pre : List Effect) (r : Run α) :
    (r.after pre).outcome = r.outcome := rfl

theorem Run.after_trace {α : Type} (pre : List Effect) (r : Run α) :
    (r.after pre).trace = pre ++ r.trace := rfl

theorem retry_errno_not_would_block {e : Int} (he : e ∈ acceptRetryErrnos) :
    ¬ (e = EAGAIN ∨ e = EWOULDBLOCK) := by
  simp only [acceptRetryErrnos, List.mem_cons, List.mem_singleton, List.not_mem_nil,
    or_false] at he
  rcases he with h | h | h | h | h | h | h | h | h | h <;> subst h <;> decide

/-- Every iteration of the loop begins with an accept attempt. -/
theorem AcceptLoop_trace_head (cfg : BuildConfig) (dirFd : Int) (deadline : Deadline)
    (r : AcceptRound) (rest : List AcceptRound) :
    ∃ t, (AcceptLoop cfg dirFd deadline (r :: rest)).trace
      = Effect.sys_accept dirFd cfg.HAVE_ACCEPT4 :: t := by
  unfold AcceptLoop
  by_cases h1 : r.fd ≠ -1
  · rw [if_pos h1]
    exact ⟨_, rfl⟩
  · rw [if_neg h1]
    by_cases h2 : r.errno = EAGAIN ∨ r.errno = EWOULDBLOCK
    · rw [if_pos h2]
      by_cases h3 : r.wakeup = WakeupSource.kDeadlineTimer
      · rw [if_pos h3]
        exact ⟨_, rfl⟩
      · rw [if_neg h3]
        exact ⟨_, rfl⟩
    · rw [if_neg h2]
      by_cases h4 : r.errno ∈ acceptRetryErrnos
      · rw [if_pos h4]
        exact ⟨_, rfl⟩
      · rw [if_neg h4]
        exact ⟨_, rfl⟩

/-- One transient failure at the head of the script: the loop makes the attempt
and carries on with the rest of the script. -/
theorem AcceptLoop_retry_head (cfg : BuildConfig) (dirFd : Int) (deadline : Deadline)
    (r : AcceptRound) (rest : List AcceptRound) (hfd : r.fd = -1)
    (he : r.errno ∈ acceptRetryErrnos) :
    AcceptLoop cfg dirFd deadline (r :: rest)
      = (AcceptLoop cfg dirFd deadline rest).after
          [Effect.sys_accept dirFd cfg.HAVE_ACCEPT4] := by
  have hwb := retry_errno_not_would_block he
  simp only [AcceptLoop, hfd, ne_eq, not_true_eq_false, if_false, hwb, he, if_true]

/-- A transient failure anywhere in the script changes neither the outcome of
the loop nor the waits it performs. -/
theorem AcceptLoop_retry_anywhere (cfg : BuildConfig) (dirFd : Int) (deadline : Deadline)
    (r : AcceptRound) (hfd : r.fd = -1) (he : r.errno ∈ acceptRetryErrnos)
    (pre post : List AcceptRound) :
    (AcceptLoop cfg dirFd deadline (pre ++ r :: post)).outcome
        = (AcceptLoop cfg dirFd deadline (pre ++ post)).outcome
      ∧ (AcceptLoop cfg dirFd deadline (pre ++ r :: post)).trace.filter Effect.isWait
        = (AcceptLoop cfg dirFd deadline (pre ++ post)).trace.filter Effect.isWait := by
  induction pre with
  | nil =>
    rw [List.nil_append, List.nil_append, AcceptLoop_retry_head cfg dirFd deadline r post hfd he]
    exact ⟨rfl, by simp [Run.after, Effect.isWait]⟩
  | cons p pre ih =>
    obtain ⟨ih1, ih2⟩ := ih
    rw [List.cons_append, List.cons_append]
    unfold AcceptLoop
    by_cases h1 : p.fd ≠ -1
    · rw [if_pos h1, if_pos h1]
      exact ⟨rfl, rfl⟩
    · rw [if_neg h1, if_neg h1]
      by_cases h2 : p.errno = EAGAIN ∨ p.errno = EWOULDBLOCK
      · rw [if_pos h2, if_pos h2]
        by_cases h3 : p.wakeup = WakeupSource.kDeadlineTimer
        · rw [if_pos h3, if_pos h3]
          exact ⟨rfl, rfl⟩
        · rw [if_neg h3, if_neg h3]
          simp only [Run.after, List.filter_append, ih1, ih2, and_self]
      · rw [if_neg h2, if_neg h2]
        by_cases h4 : p.errno ∈ acceptRetryErrnos
        · rw [if_pos h4, if_pos h4]
          simp only [Run.after, List.filter_append, ih1, ih2, and_self]
        · rw [if_neg h4, if_neg h4]
          exact ⟨rfl, rfl⟩

/-! ## Socket transport: claims -/

/-- C2: on a closed socket (`IsOpen()` false) each of `RecvSome`, `RecvAll`,
`SendAll` and `Accept` throws its `IoError` with an empty effect trace: no
direction lock, no cancellation point and no transfer or accept call comes
before the throw, whatever the transfer routine, the build, the cancellation
state and the responses of the OS would have been. -/
theorem closed_socket_fails_immediately (cfg : BuildConfig) (PerformIo : IoCall → Run Nat)
    (s : Socket) (len : Nat) (deadline : Deadline) (cancelled : Bool)
    (script : List AcceptRound) (h : s.IsOpen = false) :
    s.RecvSome PerformIo len deadline
        = ⟨[], Outcome.threw (Exception.IoError ("Attempt to Recv from closed socket"))⟩
      ∧ s.RecvAll PerformIo len deadline
        = ⟨[], Outcome.threw (Exception.IoError ("Attempt to RecvAll from closed socket"))⟩
      ∧ s.SendAll cfg PerformIo len deadline
        = ⟨[], Outcome.threw (Exception.IoError ("Attempt to Send to closed socket"))⟩
      ∧ s.Accept cfg cancelled deadline script
        = ⟨[], Outcome.threw (Exception.IoError ("Attempt to Accept from closed socket"))⟩ := by
  simp [Socket.RecvSome, Socket.RecvAll, Socket.SendAll, Socket.Accept, h]

/-- Witness of C2: a closed socket, a transfer routine that would have
succeeded, and a script whose first accept would have succeeded. -/
theorem closed_socket_fails_immediately_witness :
    Socket.IsOpen ⟨none, Addr.invalid, Addr.invalid⟩ = false
      ∧ (Socket.Accept ⟨true, true, true⟩ false ⟨none, Addr.invalid, Addr.invalid⟩
          Deadline.Unreachable [⟨7, 0, ⟨AddrDomain.kInet, 1⟩, WakeupSource.kWaitList⟩]).trace
        = [] :=
  ⟨rfl, by
    rw [(closed_socket_fails_immediately ⟨true, true, true⟩ (fun _ => ⟨[], Outcome.returned 0⟩)
      ⟨none, Addr.invalid, Addr.invalid⟩ 0 Deadline.Unreachable false
      [⟨7, 0, ⟨AddrDomain.kInet, 1⟩, WakeupSource.kWaitList⟩] rfl).2.2.2]⟩

/-- C3: the outcome of `Connect` once the socket exists (the task is not
cancelled and `::socket` succeeded with descriptor `fd`), for every response
of the OS:
* `connect()` returns 0: the socket is returned and no wait was made;
* `connect()` fails with `EINPROGRESS`: `Connect` waits for writability with
  the deadline; if the wakeup source is the deadline timer it throws
  `ConnectTimeout` and `SO_ERROR` has not been read; otherwise it reads
  `SO_ERROR` and, the read succeeding, throws a system error carrying exactly
  that value when it is non-zero and returns the socket when it is zero;
* `connect()` fails with any other errno (an error number, so non-zero): a
  system error carrying that errno is thrown and no wait was made. -/
theorem connect_outcome (cfg : BuildConfig) (env : ConnectEnv) (deadline : Deadline)
    (hc : env.cancelled = false) (hs : env.socket.ret ≠ -1) :
    (env.connect.ret = 0 →
        Connect cfg env deadline
          = ⟨[Effect.CancellationPoint, Effect.sys_socket cfg.SOCK_NONBLOCK,
                Effect.sys_connect env.socket.ret],
              Outcome.returned (Socket.ofFd env.socket.ret)⟩)
      ∧ (env.connect.ret ≠ 0 → env.connect.errno = EINPROGRESS →
          env.wakeup = WakeupSource.kDeadlineTimer →
        Connect cfg env deadline
          = ⟨[Effect.CancellationPoint, Effect.sys_socket cfg.SOCK_NONBLOCK,
                Effect.sys_connect env.socket.ret, Effect.WaitWriteable deadline],
              Outcome.threw Exception.ConnectTimeout⟩)
      ∧ (env.connect.ret ≠ 0 → env.connect.errno = EINPROGRESS →
          env.wakeup ≠ WakeupSource.kDeadlineTimer → env.getsockopt.ret ≠ -1 →
        Connect cfg env deadline
          = ⟨[Effect.CancellationPoint, Effect.sys_socket cfg.SOCK_NONBLOCK,
                Effect.sys_connect env.socket.ret, Effect.WaitWriteable deadline,
                Effect.sys_getsockopt env.socket.ret],
              if env.so_error ≠ 0 then Outcome.threw (Exception.system_error env.so_error)
              else Outcome.returned (Socket.ofFd env.socket.ret)⟩)
      ∧ (env.connect.ret ≠ 0 → env.connect.errno ≠ EINPROGRESS → env.connect.errno ≠ 0 →
        Connect cfg env deadline
          = ⟨[Effect.CancellationPoint, Effect.sys_socket cfg.SOCK_NONBLOCK,
                Effect.sys_connect env.socket.ret],
              Outcome.threw (Exception.system_error env.connect.errno)⟩) := by
  refine ⟨?_, ?_, ?_, ?_⟩
  · intro h0
    simp [Connect, hc, CheckSyscall, hs, h0, Socket.ofFd, Socket.Fd]
  · intro h0 h1 h2
    simp [Connect, hc, CheckSyscall, hs, h0, h1, h2, Socket.ofFd, Socket.Fd]
  · intro h0 h1 h2 h3
    by_cases h4 : env.so_error = 0
    · simp [Connect, hc, CheckSyscall, hs, h0, h1, h2, h3, h4, GetOption, ConnectFinish,
        Socket.ofFd, Socket.Fd]
    · simp [Connect, hc, CheckSyscall, hs, h0, h1, h2, h3, h4, GetOption, ConnectFinish,
        Socket.ofFd, Socket.Fd]
  · intro h0 h1 h2
    simp [Connect, hc, CheckSyscall, hs, h0, h1, h2, ConnectFinish, Socket.ofFd, Socket.Fd]

/-- Witness of C3: `connect()` reports `EINPROGRESS` and the wait is ended by
the deadline timer while `SO_ERROR` would have held `ECONNREFUSED` (111): the
call throws `ConnectTimeout`. -/
theorem connect_outcome_witness :
    Connect ⟨true, true, true⟩
        ⟨false, ⟨5, 0⟩, ⟨-1, EINPROGRESS⟩, WakeupSource.kDeadlineTimer, ⟨0, 0⟩, 111⟩ ⟨some 3⟩
      = ⟨[Effect.CancellationPoint, Effect.sys_socket true, Effect.sys_connect 5,
            Effect.WaitWriteable ⟨some 3⟩],
          Outcome.threw Exception.ConnectTimeout⟩ :=
  (connect_outcome ⟨true, true, true⟩
    ⟨false, ⟨5, 0⟩, ⟨-1, EINPROGRESS⟩, WakeupSource.kDeadlineTimer, ⟨0, 0⟩, 111⟩ ⟨some 3⟩
    rfl (by decide)).2.1 (by decide) rfl rfl

/-- C4: an accept attempt that fails (`fd == -1`) with an errno of the retry
set throws nothing and waits for nothing: the loop performs that one attempt
and goes on with the rest of the responses, so that the effect following the
failed attempt is the next accept attempt. Wherever in the sequence of responses such a
failed attempt stands, the loop and `Accept` as a whole end the same way, and
make the same waits, as if that attempt had not happened. -/
theorem accept_retry_transparent (cfg : BuildConfig) (cancelled : Bool) (s : Socket)
    (deadline : Deadline) (r : AcceptRound) (pre post : List AcceptRound)
    (hfd : r.fd = -1) (he : r.errno ∈ acceptRetryErrnos) :
    AcceptLoop cfg s.Fd deadline (r :: post)
        = (AcceptLoop cfg s.Fd deadline post).after [Effect.sys_accept s.Fd cfg.HAVE_ACCEPT4]
      ∧ (∀ (r' : AcceptRound) (post' : List AcceptRound),
          (AcceptLoop cfg s.Fd deadline (r :: r' :: post')).trace.take 2
            = [Effect.sys_accept s.Fd cfg.HAVE_ACCEPT4, Effect.sys_accept s.Fd cfg.HAVE_ACCEPT4])
      ∧ (s.Accept cfg cancelled deadline (pre ++ r :: post)).outcome
        = (s.Accept cfg cancelled deadline (pre ++ post)).outcome
      ∧ (s.Accept cfg cancelled deadline (pre ++ r :: post)).trace.filter Effect.isWait
        = (s.Accept cfg cancelled deadline (pre ++ post)).trace.filter Effect.isWait := by
  refine ⟨AcceptLoop_retry_head cfg s.Fd deadline r post hfd he, ?_, ?_, ?_⟩
  · intro r' post'
    obtain ⟨t, ht⟩ := AcceptLoop_trace_head cfg s.Fd deadline r' post'
    rw [AcceptLoop_retry_head cfg s.Fd deadline r (r' :: post') hfd he, Run.after_trace, ht]
    rfl
  · unfold Socket.Accept
    by_cases ho : (!s.IsOpen) = true
    · rw [if_pos ho, if_pos ho]
    · rw [if_neg ho, if_neg ho]
      by_cases hcn : cancelled = true
      · rw [if_pos hcn, if_pos hcn]
      · rw [if_neg hcn, if_neg hcn, Run.after_outcome, Run.after_outcome]
        exact (AcceptLoop_retry_anywhere cfg s.Fd deadline r hfd he pre post).1
  · unfold Socket.Accept
    by_cases ho : (!s.IsOpen) = true
    · rw [if_pos ho, if_pos ho]
    · rw [if_neg ho, if_neg ho]
      by_cases hcn : cancelled = true
      · rw [if_pos hcn, if_pos hcn]
      · rw [if_neg hcn, if_neg hcn, Run.after_trace, Run.after_trace, List.filter_append,
          List.filter_append, (AcceptLoop_retry_anywhere cfg s.Fd deadline r hfd he pre post).2]

/-- Witness of C4: an `ECONNABORTED` failure between a would-block round and a
successful accept. -/
theorem accept_retry_transparent_witness :
    ((Socket.ofFd 3).Accept ⟨true, true, true⟩ false ⟨some 9⟩
        ([⟨-1, EAGAIN, Addr.invalid, WakeupSource.kWaitList⟩]
          ++ ⟨-1, ECONNABORTED, Addr.invalid, WakeupSource.kDeadlineTimer⟩
            :: [⟨8, 0, ⟨AddrDomain.kInet, 5⟩, WakeupSource.kWaitList⟩])).outcome
      = Outcome.returned ⟨some 8, ⟨AddrDomain.kInet, 5⟩, Addr.invalid⟩ :=
  ((accept_retry_transparent ⟨true, true, true⟩ false (Socket.ofFd 3) ⟨some 9⟩
    ⟨-1, ECONNABORTED, Addr.invalid, WakeupSource.kDeadlineTimer⟩
    [⟨-1, EAGAIN, Addr.invalid, WakeupSource.kWaitList⟩]
    [⟨8, 0, ⟨AddrDomain.kInet, 5⟩, WakeupSource.kWaitList⟩] rfl (by decide)).2.2.1).trans
    (by decide)

/-- C5: an accept attempt on an open listening socket that fails with
`EAGAIN`/`EWOULDBLOCK` is followed by a wait for readability with the deadline
of the caller; if the wakeup source is then the deadline timer `Accept` throws
`ConnectTimeout`, and for every other wakeup source nothing is thrown and the
loop goes on: the effect following the wait is the next accept attempt. -/
theorem accept_would_block (cfg : BuildConfig) (s : Socket) (deadline : Deadline)
    (r : AcceptRound) (rest : List AcceptRound) (ho : s.IsOpen = true) (hfd : r.fd = -1)
    (he : r.errno = EAGAIN ∨ r.errno = EWOULDBLOCK) :
    (r.wakeup = WakeupSource.kDeadlineTimer →
        s.Accept cfg false deadline (r :: rest)
          = ⟨[Effect.CancellationPoint, Effect.Lock DirectionKind.Read,
                Effect.sys_accept s.Fd cfg.HAVE_ACCEPT4, Effect.WaitReadable deadline],
              Outcome.threw Exception.ConnectTimeout⟩)
      ∧ (r.wakeup ≠ WakeupSource.kDeadlineTimer →
        s.Accept cfg false deadline (r :: rest)
            = (AcceptLoop cfg s.Fd deadline rest).after
                [Effect.CancellationPoint, Effect.Lock DirectionKind.Read,
                  Effect.sys_accept s.Fd cfg.HAVE_ACCEPT4, Effect.WaitReadable deadline]
          ∧ ∀ (r' : AcceptRound) (rest' : List AcceptRound), rest = r' :: rest' →
            (s.Accept cfg false deadline (r :: rest)).trace.take 5
              = [Effect.CancellationPoint, Effect.Lock DirectionKind.Read,
                  Effect.sys_accept s.Fd cfg.HAVE_ACCEPT4, Effect.WaitReadable deadline,
                  Effect.sys_accept s.Fd cfg.HAVE_ACCEPT4]) := by
  constructor
  · intro hw
    simp [Socket.Accept, ho, AcceptLoop, hfd, he, hw, Run.after]
  · intro hw
    have hacc : s.Accept cfg false deadline (r :: rest)
        = (AcceptLoop cfg s.Fd deadline rest).after
            [Effect.CancellationPoint, Effect.Lock DirectionKind.Read,
              Effect.sys_accept s.Fd cfg.HAVE_ACCEPT4, Effect.WaitReadable deadline] := by
      simp [Socket.Accept, ho, AcceptLoop, hfd, he, hw, Run.after]
    refine ⟨hacc, ?_⟩
    intro r' rest' hrest
    obtain ⟨t, ht⟩ := AcceptLoop_trace_head cfg s.Fd deadline r' rest'
    rw [hacc, Run.after_trace, hrest, ht]
    rfl

/-- Witness of C5: a would-block round woken by the wait list, then a
would-block round ended by the deadline timer. -/
theorem accept_would_block_witness :
    (Socket.ofFd 3).Accept ⟨true, true, true⟩ false ⟨some 9⟩
        [⟨-1, EAGAIN, Addr.invalid, WakeupSource.kWaitList⟩,
          ⟨-1, EAGAIN, Addr.invalid, WakeupSource.kDeadlineTimer⟩]
      = ⟨[Effect.CancellationPoint, Effect.Lock DirectionKind.Read,
            Effect.sys_accept 3 true, Effect.WaitReadable ⟨some 9⟩,
            Effect.sys_accept 3 true, Effect.WaitReadable ⟨some 9⟩],
          Outcome.threw Exception.ConnectTimeout⟩ :=
  ((accept_would_block ⟨true, true, true⟩ (Socket.ofFd 3) ⟨some 9⟩
    ⟨-1, EAGAIN, Addr.invalid, WakeupSource.kWaitList⟩
    [⟨-1, EAGAIN, Addr.invalid, WakeupSource.kDeadlineTimer⟩] rfl rfl (Or.inl rfl)).2
    (by decide)).1.trans (by decide)

/-- C6: an accept attempt that fails (`fd == -1`) with an errno that is
neither `EAGAIN`/`EWOULDBLOCK` nor in the retry set ends `Accept` at once with
a system error carrying that errno: after the attempt there is no further
accept attempt and no wait, whatever responses would have followed, and no
socket is returned. -/
theorem accept_fatal_errno (cfg : BuildConfig) (s : Socket) (deadline : Deadline)
    (r : AcceptRound) (rest : List AcceptRound) (ho : s.IsOpen = true) (hfd : r.fd = -1)
    (hwb : ¬ (r.errno = EAGAIN ∨ r.errno = EWOULDBLOCK)) (hre : r.errno ∉ acceptRetryErrnos) :
    AcceptLoop cfg s.Fd deadline (r :: rest)
        = ⟨[Effect.sys_accept s.Fd cfg.HAVE_ACCEPT4],
            Outcome.threw (Exception.system_error r.errno)⟩
      ∧ s.Accept cfg false deadline (r :: rest)
        = ⟨[Effect.CancellationPoint, Effect.Lock DirectionKind.Read,
              Effect.sys_accept s.Fd cfg.HAVE_ACCEPT4],
            Outcome.threw (Exception.system_error r.errno)⟩ := by
  have hloop : AcceptLoop cfg s.Fd deadline (r :: rest)
      = ⟨[Effect.sys_accept s.Fd cfg.HAVE_ACCEPT4],
          Outcome.threw (Exception.system_error r.errno)⟩ := by
    unfold AcceptLoop
    rw [if_neg (by simp [hfd]), if_neg hwb, if_neg hre]
    rfl
  refine ⟨hloop, ?_⟩
  simp [Socket.Accept, ho, hloop, Run.after]

/-- Witness of C6: `EMFILE` (24) on the first attempt, with a successful accept
scripted after it that is never reached. -/
theorem accept_fatal_errno_witness :
    (Socket.ofFd 3).Accept ⟨true, true, true⟩ false ⟨some 9⟩
        [⟨-1, 24, Addr.invalid, WakeupSource.kWaitList⟩,
          ⟨8, 0, ⟨AddrDomain.kInet, 5⟩, WakeupSource.kWaitList⟩]
      = ⟨[Effect.CancellationPoint, Effect.Lock DirectionKind.Read, Effect.sys_accept 3 true],
          Outcome.threw (Exception.system_error 24)⟩ :=
  (accept_fatal_errno ⟨true, true, true⟩ (Socket.ofFd 3) ⟨some 9⟩
    ⟨-1, 24, Addr.invalid, WakeupSource.kWaitList⟩
    [⟨8, 0, ⟨AddrDomain.kInet, 5⟩, WakeupSource.kWaitList⟩] rfl rfl (by decide) (by decide)).2

/-! ## Socket transport: lemmas on memoized addresses and on the accept loop -/

/-- A call of either getter on an open socket leaves it open on the same
descriptor. -/
theorem Getname_open (s : Socket) (g : AddrGetter) (env : GetterEnv) (ho : s.IsOpen = true) :
    (s.Getname g env).1.IsOpen = true ∧ (s.Getname g env).1.Fd = s.Fd := by
  cases g <;>
    simp_all [Socket.Getname, Socket.Getpeername, Socket.Getsockname, Socket.IsOpen, Socket.Fd]

/-- A call of either getter on an open socket leaves a populated memoized
address as it is, and when it is the getter of that address it returns it
without any effect. -/
theorem Getname_populated (s : Socket) (g g' : AddrGetter) (env : GetterEnv)
    (ho : s.IsOpen = true) (h : (s.memo g).domain ≠ AddrDomain.kInvalid) :
    (s.Getname g' env).1.memo g = s.memo g
      ∧ (g' = g → (s.Getname g' env).2 = ⟨[], Outcome.returned (s.memo g)⟩) := by
  cases g <;> cases g' <;>
    simp_all [Socket.Getname, Socket.Getpeername, Socket.Getsockname, Socket.memo, MemoizeAddr]

/-- A call on an open socket for an address that is not populated calls the
getter, whatever the getter answers. -/
theorem Getname_unpopulated_trace (s : Socket) (g : AddrGetter) (env : GetterEnv)
    (ho : s.IsOpen = true) (h : (s.memo g).domain = AddrDomain.kInvalid) :
    (s.Getname g env).2.trace = [g.call s.Fd] := by
  by_cases hr : env.result.ret = -1 <;> cases g <;>
    simp_all [Socket.Getname, Socket.Getpeername, Socket.Getsockname, Socket.memo,
      MemoizeAddr, CheckSyscall]

theorem GetnameMany_populated (g : AddrGetter) (calls : List (AddrGetter × GetterEnv))
    (s : Socket) (ho : s.IsOpen = true) (h : (s.memo g).domain ≠ AddrDomain.kInvalid) :
    (s.GetnameMany calls).1.memo g = s.memo g
      ∧ ∀ p ∈ List.zip calls (s.GetnameMany calls).2,
          p.1.1 = g → p.2 = ⟨[], Outcome.returned (s.memo g)⟩ := by
  induction calls generalizing s with
  | nil => simp [Socket.GetnameMany]
  | cons c cs ih =>
    obtain ⟨h1, h2⟩ := Getname_populated s g c.1 c.2 ho h
    obtain ⟨ih1, ih2⟩ := ih (s.Getname c.1 c.2).1 (Getname_open s c.1 c.2 ho).1
      (by rw [h1]; exact h)
    refine ⟨by simp only [Socket.GetnameMany]; rw [ih1, h1], ?_⟩
    intro p hp
    simp only [Socket.GetnameMany, List.zip_cons_cons, List.mem_cons] at hp
    rcases hp with hp | hp
    · subst hp
      intro hg
      exact h2 hg
    · intro hg
      rw [← h1]
      exact ih2 p hp hg

/-- A script of transient failures only: the loop makes one attempt per
response and is still running. -/
theorem AcceptLoop_transient_only (cfg : BuildConfig) (dirFd : Int) (deadline : Deadline)
    (script : List AcceptRound)
    (h : ∀ r ∈ script, r.fd = -1 ∧ r.errno ∈ acceptRetryErrnos) :
    AcceptLoop cfg dirFd deadline script
      = ⟨List.replicate script.length (Effect.sys_accept dirFd cfg.HAVE_ACCEPT4),
          Outcome.running⟩ := by
  induction script with
  | nil => rfl
  | cons r rest ih =>
    have hr := h r (List.mem_cons_self r rest)
    rw [AcceptLoop_retry_head cfg dirFd deadline r rest hr.1 hr.2,
      ih (fun x hx => h x (List.mem_cons_of_mem r hx))]
    rfl

/-- The loop leaves the running state only at a response that is a success, a
fatal failure, or a would-block whose wait the deadline timer ended. -/
theorem AcceptLoop_terminates_only (cfg : BuildConfig) (dirFd : Int) (deadline : Deadline)
    (script : List AcceptRound)
    (h : (AcceptLoop cfg dirFd deadline script).outcome ≠ Outcome.running) :
    ∃ r ∈ script, r.fd ≠ -1
      ∨ (¬ (r.errno = EAGAIN ∨ r.errno = EWOULDBLOCK) ∧ r.errno ∉ acceptRetryErrnos)
      ∨ ((r.errno = EAGAIN ∨ r.errno = EWOULDBLOCK)
          ∧ r.wakeup = WakeupSource.kDeadlineTimer) := by
  induction script with
  | nil => exact absurd rfl h
  | cons r rest ih =>
    by_cases h1 : r.fd ≠ -1
    · exact ⟨r, List.mem_cons_self r rest, Or.inl h1⟩
    · by_cases h2 : r.errno = EAGAIN ∨ r.errno = EWOULDBLOCK
      · by_cases h3 : r.wakeup = WakeupSource.kDeadlineTimer
        · exact ⟨r, List.mem_cons_self r rest, Or.inr (Or.inr ⟨h2, h3⟩)⟩
        · have hrest : (AcceptLoop cfg dirFd deadline rest).outcome ≠ Outcome.running := by
            intro hrun
            apply h
            unfold AcceptLoop
            rw [if_neg h1, if_pos h2, if_neg h3, Run.after_outcome, hrun]
          obtain ⟨x, hx, hcase⟩ := ih hrest
          exact ⟨x, List.mem_cons_of_mem r hx, hcase⟩
      · by_cases h4 : r.errno ∈ acceptRetryErrnos
        · have hrest : (AcceptLoop cfg dirFd deadline rest).outcome ≠ Outcome.running := by
            intro hrun
            apply h
            unfold AcceptLoop
            rw [if_neg h1, if_neg h2, if_pos h4, Run.after_outcome, hrun]
          obtain ⟨x, hx, hcase⟩ := ih hrest
          exact ⟨x, List.mem_cons_of_mem r hx, hcase⟩
        · exact ⟨r, List.mem_cons_self r rest, Or.inr (Or.inl ⟨h2, h4⟩)⟩

/-! ## Socket transport: claims on addresses, Listen, cancellation, SendAll, teardown -/

/-- Counterexample to C15 as stated ("the getter is called at most once per
address kind over the lifetime of the socket"): on an open socket whose peer
address is not yet populated, a `Getpeername` whose `::getpeername` fails with
`ENOTCONN` (107) throws and caches nothing, so the next `Getpeername` calls
`::getpeername` again: two getter calls for the one address kind. -/
theorem memoize_getter_called_twice :
    (Socket.ofFd 3).IsOpen = true
      ∧ ¬ (getterCalls AddrGetter.getpeername 3
            (((Socket.ofFd 3).GetnameMany
                [(AddrGetter.getpeername, ⟨⟨-1, 107⟩, Addr.invalid⟩),
                  (AddrGetter.getpeername, ⟨⟨0, 0⟩, ⟨AddrDomain.kInet, 7⟩⟩)]).2.map
              Run.trace).flatten ≤ 1) := by
  decide

/-- C15 (amended): peer and local addresses are memoized once populated, that
is once the stored address has a domain other than `kInvalid` (the test
`MemoizeAddr` makes). On every open socket, for the address of kind `g`:
* once it is populated, in every later sequence of `Getpeername`/`Getsockname`
  calls each call for `g` returns that same address with no effect at all (no
  getter call), and the cached address stays;
* a call on an unpopulated address whose getter succeeds calls the getter once,
  returns the address it reported and stores it; when that address has a valid
  domain the address is populated from then on, so every later call for `g`
  returns it without a getter call; when its domain is `kInvalid` the next call
  for `g` calls the getter again;
* a call on an unpopulated address whose getter fails throws the system error
  after that one getter call and leaves the socket as it was, and the next call
  for `g` calls the getter again;
* the socket `Accept` returns carries the address `accept` reported as its peer
  address, and when that address has a valid domain every later `Getpeername`
  on it returns it without a getter call. -/
theorem memoized_address (s : Socket) (g : AddrGetter) (env env' : GetterEnv)
    (calls : List (AddrGetter × GetterEnv)) (cfg : BuildConfig) (deadline : Deadline)
    (r : AcceptRound) (rest : List AcceptRound) (ho : s.IsOpen = true) :
    ((s.memo g).domain ≠ AddrDomain.kInvalid →
        (s.GetnameMany calls).1.memo g = s.memo g
          ∧ ∀ p ∈ List.zip calls (s.GetnameMany calls).2,
              p.1.1 = g → p.2 = ⟨[], Outcome.returned (s.memo g)⟩)
      ∧ ((s.memo g).domain = AddrDomain.kInvalid → env.result.ret ≠ -1 →
          (s.Getname g env).2 = ⟨[g.call s.Fd], Outcome.returned env.addr⟩
            ∧ (s.Getname g env).1.memo g = env.addr
            ∧ (env.addr.domain ≠ AddrDomain.kInvalid →
                ∀ p ∈ List.zip calls ((s.Getname g env).1.GetnameMany calls).2,
                  p.1.1 = g → p.2 = ⟨[], Outcome.returned env.addr⟩)
            ∧ (env.addr.domain = AddrDomain.kInvalid →
                ((s.Getname g env).1.Getname g env').2.trace = [g.call s.Fd]))
      ∧ ((s.memo g).domain = AddrDomain.kInvalid → env.result.ret = -1 →
          (s.Getname g env).2
              = ⟨[g.call s.Fd], Outcome.threw (Exception.system_error env.result.errno)⟩
            ∧ (s.Getname g env).1 = s
            ∧ ((s.Getname g env).1.Getname g env').2.trace = [g.call s.Fd])
      ∧ (r.fd ≠ -1 →
          AcceptLoop cfg s.Fd deadline (r :: rest)
              = ⟨[Effect.sys_accept s.Fd cfg.HAVE_ACCEPT4],
                  Outcome.returned ⟨some r.fd, r.addr, Addr.invalid⟩⟩
            ∧ (r.addr.domain ≠ AddrDomain.kInvalid →
                ∀ p ∈ List.zip calls
                    ((⟨some r.fd, r.addr, Addr.invalid⟩ : Socket).GetnameMany calls).2,
                  p.1.1 = AddrGetter.getpeername →
                    p.2 = ⟨[], Outcome.returned r.addr⟩)) := by
  refine ⟨GetnameMany_populated g calls s ho, ?_, ?_, ?_⟩
  · intro h1 h2
    have hrun : (s.Getname g env).2 = ⟨[g.call s.Fd], Outcome.returned env.addr⟩ := by
      cases g <;>
        simp_all [Socket.Getname, Socket.Getpeername, Socket.Getsockname, Socket.memo,
          MemoizeAddr, CheckSyscall]
    have hmemo : (s.Getname g env).1.memo g = env.addr := by
      cases g <;>
        simp_all [Socket.Getname, Socket.Getpeername, Socket.Getsockname, Socket.memo,
          MemoizeAddr, CheckSyscall]
    obtain ⟨hopen, hfd⟩ := Getname_open s g env ho
    refine ⟨hrun, hmemo, ?_, ?_⟩
    · intro hv p hp hg
      have := (GetnameMany_populated g calls (s.Getname g env).1 hopen
        (by rw [hmemo]; exact hv)).2 p hp hg
      rw [hmemo] at this
      exact this
    · intro hv
      rw [Getname_unpopulated_trace (s.Getname g env).1 g env' hopen (by rw [hmemo]; exact hv),
        hfd]
  · intro h1 h2
    have hsame : (s.Getname g env).1 = s := by
      cases g <;>
        simp_all [Socket.Getname, Socket.Getpeername, Socket.Getsockname, Socket.memo,
          MemoizeAddr, CheckSyscall]
    refine ⟨?_, hsame, ?_⟩
    · cases g <;>
        simp_all [Socket.Getname, Socket.Getpeername, Socket.Getsockname, Socket.memo,
          MemoizeAddr, CheckSyscall]
    · rw [hsame]
      exact Getname_unpopulated_trace s g env' ho h1
  · intro h1
    refine ⟨by simp [AcceptLoop, h1, Socket.ofFd], ?_⟩
    intro hv p hp hg
    exact (GetnameMany_populated AddrGetter.getpeername calls
      (⟨some r.fd, r.addr, Addr.invalid⟩ : Socket) rfl hv).2 p hp hg

/-- Witness of C15 (amended): on an open socket on descriptor 3 whose peer
address is not populated, a `Getpeername` whose getter succeeds calls
`::getpeername` once, returns the reported address and caches it; the next
`Getpeername` and a `Getsockname` after it leave the cached peer address, and
the second `Getpeername` has no effect at all. -/
theorem memoized_address_witness :
    ((Socket.ofFd 3).Getname AddrGetter.getpeername ⟨⟨0, 0⟩, ⟨AddrDomain.kInet, 7⟩⟩).2
        = ⟨[Effect.sys_getpeername 3], Outcome.returned ⟨AddrDomain.kInet, 7⟩⟩
      ∧ ((Socket.ofFd 3).Getname AddrGetter.getpeername
          ⟨⟨0, 0⟩, ⟨AddrDomain.kInet, 7⟩⟩).1.memo AddrGetter.getpeername
        = ⟨AddrDomain.kInet, 7⟩
      ∧ (((Socket.ofFd 3).Getname AddrGetter.getpeername
          ⟨⟨0, 0⟩, ⟨AddrDomain.kInet, 7⟩⟩).1.GetnameMany
            [(AddrGetter.getpeername, ⟨⟨0, 0⟩, ⟨AddrDomain.kInet, 8⟩⟩),
              (AddrGetter.getsockname, ⟨⟨0, 0⟩, ⟨AddrDomain.kInet, 9⟩⟩)]).2
        = [⟨[], Outcome.returned ⟨AddrDomain.kInet, 7⟩⟩,
            ⟨[Effect.sys_getsockname 3], Outcome.returned ⟨AddrDomain.kInet, 9⟩⟩] :=
  ⟨((memoized_address (Socket.ofFd 3) AddrGetter.getpeername
      ⟨⟨0, 0⟩, ⟨AddrDomain.kInet, 7⟩⟩ ⟨⟨0, 0⟩, Addr.invalid⟩
      [(AddrGetter.getpeername, ⟨⟨0, 0⟩, ⟨AddrDomain.kInet, 8⟩⟩),
        (AddrGetter.getsockname, ⟨⟨0, 0⟩, ⟨AddrDomain.kInet, 9⟩⟩)]
      ⟨true, true, true⟩ Deadline.Unreachable
      ⟨8, 0, ⟨AddrDomain.kInet, 5⟩, WakeupSource.kWaitList⟩ [] rfl).2.1 rfl (by decide)).1,
    ((memoized_address (Socket.ofFd 3) AddrGetter.getpeername
      ⟨⟨0, 0⟩, ⟨AddrDomain.kInet, 7⟩⟩ ⟨⟨0, 0⟩, Addr.invalid⟩
      [(AddrGetter.getpeername, ⟨⟨0, 0⟩, ⟨AddrDomain.kInet, 8⟩⟩),
        (AddrGetter.getsockname, ⟨⟨0, 0⟩, ⟨AddrDomain.kInet, 9⟩⟩)]
      ⟨true, true, true⟩ Deadline.Unreachable
      ⟨8, 0, ⟨AddrDomain.kInet, 5⟩, WakeupSource.kWaitList⟩ [] rfl).2.1 rfl (by decide)).2.1,
    by decide⟩

/-- Counterexample to C16 as stated: socket creation, bind and listen would all
succeed, but `::setsockopt(SO_REUSEPORT)` fails with `ENOPROTOOPT` (92): `Listen`
throws that system error, returns no socket and never reaches `::bind`. -/
theorem listen_fails_on_setsockopt :
    Listen ⟨true, true, true⟩ true ⟨false, ⟨5, 0⟩, ⟨0, 0⟩, ⟨-1, 92⟩, ⟨0, 0⟩, ⟨0, 0⟩⟩ 128
      = ⟨[Effect.CancellationPoint, Effect.sys_socket true,
            Effect.sys_setsockopt 5 SOL_SOCKET SO_REUSEADDR 1,
            Effect.sys_setsockopt 5 SOL_SOCKET SO_REUSEPORT 1],
          Outcome.threw (Exception.system_error 92)⟩ := by
  decide

/-- C16 (amended): once the socket exists (no cancellation pending, `::socket`
succeeded), `Listen` goes through setting `SO_REUSEADDR`, setting
`SO_REUSEPORT` where the build defines it (otherwise it only logs), `::bind` and
`::listen`, each checked: it returns the listening socket when all of them
succeed, and throws the system error of the first one that fails, a failing
`::setsockopt` included, without going on to the later calls. -/
theorem listen_outcome (cfg : BuildConfig) (have_SO_REUSEPORT : Bool) (env : ListenEnv)
    (backlog : Int) (hc : env.cancelled = false) (hs : env.socket.ret ≠ -1) :
    (env.reuseaddr.ret ≠ -1 → (have_SO_REUSEPORT = true → env.reuseport.ret ≠ -1) →
        env.bind.ret ≠ -1 → env.listen.ret ≠ -1 →
        (Listen cfg have_SO_REUSEPORT env backlog).outcome
          = Outcome.returned (Socket.ofFd env.socket.ret))
      ∧ (env.reuseaddr.ret = -1 →
        Listen cfg have_SO_REUSEPORT env backlog
          = ⟨[Effect.CancellationPoint, Effect.sys_socket cfg.SOCK_NONBLOCK,
                Effect.sys_setsockopt env.socket.ret SOL_SOCKET SO_REUSEADDR 1],
              Outcome.threw (Exception.system_error env.reuseaddr.errno)⟩)
      ∧ (env.reuseaddr.ret ≠ -1 → have_SO_REUSEPORT = true → env.reuseport.ret = -1 →
        Listen cfg have_SO_REUSEPORT env backlog
          = ⟨[Effect.CancellationPoint, Effect.sys_socket cfg.SOCK_NONBLOCK,
                Effect.sys_setsockopt env.socket.ret SOL_SOCKET SO_REUSEADDR 1,
                Effect.sys_setsockopt env.socket.ret SOL_SOCKET SO_REUSEPORT 1],
              Outcome.threw (Exception.system_error env.reuseport.errno)⟩)
      ∧ (env.reuseaddr.ret ≠ -1 → (have_SO_REUSEPORT = true → env.reuseport.ret ≠ -1) →
          env.bind.ret = -1 →
        (Listen cfg have_SO_REUSEPORT env backlog).outcome
            = Outcome.threw (Exception.system_error env.bind.errno)
          ∧ ∀ b, Effect.sys_listen env.socket.ret b
              ∉ (Listen cfg have_SO_REUSEPORT env backlog).trace)
      ∧ (env.reuseaddr.ret ≠ -1 → (have_SO_REUSEPORT = true → env.reuseport.ret ≠ -1) →
          env.bind.ret ≠ -1 → env.listen.ret = -1 →
        (Listen cfg have_SO_REUSEPORT env backlog).outcome
          = Outcome.threw (Exception.system_error env.listen.errno)) := by
  refine ⟨?_, ?_, ?_, ?_, ?_⟩
  · intro h1 h2 h3 h4
    cases have_SO_REUSEPORT <;>
      simp_all [Listen, Run.andThen, Run.after, CancellationPoint, MakeSocket, CheckSyscall,
        Socket.SetOption, CheckedCall, Socket.IsOpen, Socket.ofFd, Socket.Fd]
  · intro h1
    simp [Listen, Run.andThen, Run.after, CancellationPoint, MakeSocket, CheckSyscall,
      Socket.SetOption, CheckedCall, Socket.IsOpen, hc, hs, h1, Socket.ofFd, Socket.Fd]
  · intro h1 h2 h3
    simp [Listen, Run.andThen, Run.after, CancellationPoint, MakeSocket, CheckSyscall,
      Socket.SetOption, CheckedCall, Socket.IsOpen, hc, hs, h1, h2, h3, Socket.ofFd, Socket.Fd]
  · intro h1 h2 h3
    cases have_SO_REUSEPORT <;>
      simp_all [Listen, Run.andThen, Run.after, CancellationPoint, MakeSocket, CheckSyscall,
        Socket.SetOption, CheckedCall, Socket.IsOpen, Socket.ofFd, Socket.Fd]
  · intro h1 h2 h3 h4
    cases have_SO_REUSEPORT <;>
      simp_all [Listen, Run.andThen, Run.after, CancellationPoint, MakeSocket, CheckSyscall,
        Socket.SetOption, CheckedCall, Socket.IsOpen, Socket.ofFd, Socket.Fd]

/-- Witness of C16 (amended): `::bind` fails with `EADDRINUSE` (98) after both
options were set. -/
theorem listen_outcome_witness :
    (Listen ⟨true, true, true⟩ true ⟨false, ⟨5, 0⟩, ⟨0, 0⟩, ⟨0, 0⟩, ⟨-1, 98⟩, ⟨0, 0⟩⟩
        128).outcome
      = Outcome.threw (Exception.system_error 98) :=
  ((listen_outcome ⟨true, true, true⟩ true ⟨false, ⟨5, 0⟩, ⟨0, 0⟩, ⟨0, 0⟩, ⟨-1, 98⟩, ⟨0, 0⟩⟩
    128 rfl (by decide)).2.2.2.1 (by decide) (fun _ => by decide) rfl).1

/-- C17: cancellation is checked before the operation starts. For a task whose
cancellation is pending, `Connect` performs its cancellation point and nothing
else: no socket is created and `connect()` is not issued; `Accept` on an open
socket performs its cancellation point and nothing else: the read direction is
not locked and no accept attempt is made. In every call of `Connect`, and of
`Accept` on an open socket, the cancellation point is the first effect. -/
theorem cancellation_checked_first (cfg : BuildConfig) (env : ConnectEnv) (s : Socket)
    (deadline : Deadline) (cancelled : Bool) (script : List AcceptRound)
    (ho : s.IsOpen = true) :
    (env.cancelled = true →
        Connect cfg env deadline
          = ⟨[Effect.CancellationPoint], Outcome.threw Exception.Cancelled⟩)
      ∧ s.Accept cfg true deadline script
          = ⟨[Effect.CancellationPoint], Outcome.threw Exception.Cancelled⟩
      ∧ (Connect cfg env deadline).trace.head? = some Effect.CancellationPoint
      ∧ (s.Accept cfg cancelled deadline script).trace.head?
          = some Effect.CancellationPoint := by
  refine ⟨?_, ?_, ?_, ?_⟩
  · intro hc
    simp [Connect, hc]
  · simp [Socket.Accept, ho]
  · have hf : ∀ (t : List Effect) (e : Int) (k : Socket), (ConnectFinish t e k).trace = t := by
      intro t e k
      unfold ConnectFinish
      split <;> rfl
    unfold Connect
    by_cases hc : env.cancelled = true
    · simp [hc]
    · simp only [hc, if_false]
      cases CheckSyscall env.socket with
      | error e => rfl
      | ok fd =>
        simp only []
        by_cases h0 : env.connect.ret = 0
        · simp [h0]
        · simp only [h0, if_false]
          by_cases h1 : env.connect.errno = EINPROGRESS
          · simp only [h1, if_true]
            by_cases h2 : env.wakeup = WakeupSource.kDeadlineTimer
            · simp [h2]
            · simp only [h2, if_false]
              cases GetOption env.getsockopt env.so_error with
              | error e => rfl
              | ok v => simp [hf]
          · simp [h1, hf]
  · cases cancelled <;> simp [Socket.Accept, ho, Run.after]

/-- Witness of C17: a cancelled `Accept` on an open listening socket whose
first accept would have succeeded. -/
theorem cancellation_checked_first_witness :
    (Socket.ofFd 3).Accept ⟨true, true, true⟩ true Deadline.Unreachable
        [⟨8, 0, ⟨AddrDomain.kInet, 5⟩, WakeupSource.kWaitList⟩]
      = ⟨[Effect.CancellationPoint], Outcome.threw Exception.Cancelled⟩ :=
  (cancellation_checked_first ⟨true, true, true⟩
    ⟨true, ⟨5, 0⟩, ⟨0, 0⟩, WakeupSource.kWaitList, ⟨0, 0⟩, 0⟩ (Socket.ofFd 3)
    Deadline.Unreachable true [⟨8, 0, ⟨AddrDomain.kInet, 5⟩, WakeupSource.kWaitList⟩]
    rfl).2.1

/-- Counterexample to C18 as stated ("on every build configuration"): on a
build that does not define `MSG_NOSIGNAL` the transfer function `SendAll` hands
to the write direction is plain `::write`, not a send with the no-signal flag.
The transfer routine here reports 1 when it is handed the no-signal send and 0
otherwise. -/
theorem send_all_plain_write_without_MSG_NOSIGNAL :
    (Socket.ofFd 3).SendAll ⟨true, false, true⟩
        (fun call => ⟨[], Outcome.returned (if call.func = IoFunc.send true then 1 else 0)⟩)
        10 Deadline.Unreachable
      = ⟨[Effect.Lock DirectionKind.Write], Outcome.returned 0⟩ := by
  decide

/-- C18 (amended): on an open socket `SendAll` locks the write direction and
runs the transfer routine on it in whole-transfer mode; the transfer function
is the send with the no-signal flag on builds that define `MSG_NOSIGNAL`, and
plain `::write` on builds that do not. -/
theorem send_all_transfer_function (cfg : BuildConfig) (PerformIo : IoCall → Run Nat)
    (s : Socket) (len : Nat) (deadline : Deadline) (ho : s.IsOpen = true) :
    s.SendAll cfg PerformIo len deadline
        = (PerformIo ⟨DirectionKind.Write,
              if cfg.MSG_NOSIGNAL then IoFunc.send true else IoFunc.write, len,
              TransferMode.kWhole, deadline, ("Send to "), s.peername_⟩).after
            [Effect.Lock DirectionKind.Write] := by
  simp [Socket.SendAll, ho, Socket.send_func]

/-- Witness of C18 (amended): on a build with `MSG_NOSIGNAL` the same transfer
routine is handed the no-signal send. -/
theorem send_all_transfer_function_witness :
    (Socket.ofFd 3).SendAll ⟨true, true, true⟩
        (fun call => ⟨[], Outcome.returned (if call.func = IoFunc.send true then 1 else 0)⟩)
        10 Deadline.Unreachable
      = ⟨[Effect.Lock DirectionKind.Write], Outcome.returned 1⟩ :=
  (send_all_transfer_function ⟨true, true, true⟩
    (fun call => ⟨[], Outcome.returned (if call.func = IoFunc.send true then 1 else 0)⟩)
    (Socket.ofFd 3) 10 Deadline.Unreachable rfl).trans (by decide)

/-- C19: `Accept` consults the deadline only on the would-block path. On an
open socket, for every number of responses that are all failures with an errno
of the retry set, and for every deadline (also one that had elapsed before the
call), `Accept` has made exactly one accept attempt per response after its
cancellation point and lock, no wait, has thrown nothing and is still in its
loop. Whenever `Accept` is no longer in its loop, some response was a
successful accept, a fatal failure, or a would-block whose wait was ended by
the deadline timer. -/
theorem accept_loops_on_transient_errors (cfg : BuildConfig) (s : Socket) (deadline : Deadline)
    (script other : List AcceptRound) (ho : s.IsOpen = true)
    (h : ∀ r ∈ script, r.fd = -1 ∧ r.errno ∈ acceptRetryErrnos) :
    s.Accept cfg false deadline script
        = ⟨[Effect.CancellationPoint, Effect.Lock DirectionKind.Read]
              ++ List.replicate script.length (Effect.sys_accept s.Fd cfg.HAVE_ACCEPT4),
            Outcome.running⟩
      ∧ s.Accept cfg false Deadline.Passed script
        = ⟨[Effect.CancellationPoint, Effect.Lock DirectionKind.Read]
              ++ List.replicate script.length (Effect.sys_accept s.Fd cfg.HAVE_ACCEPT4),
            Outcome.running⟩
      ∧ ((s.Accept cfg false deadline other).outcome ≠ Outcome.running →
          ∃ r ∈ other, r.fd ≠ -1
            ∨ (¬ (r.errno = EAGAIN ∨ r.errno = EWOULDBLOCK) ∧ r.errno ∉ acceptRetryErrnos)
            ∨ ((r.errno = EAGAIN ∨ r.errno = EWOULDBLOCK)
                ∧ r.wakeup = WakeupSource.kDeadlineTimer)) := by
  have hacc : ∀ (d : Deadline) (sc : List AcceptRound),
      s.Accept cfg false d sc
        = (AcceptLoop cfg s.Fd d sc).after
            [Effect.CancellationPoint, Effect.Lock DirectionKind.Read] := by
    intro d sc
    simp [Socket.Accept, ho]
  refine ⟨?_, ?_, ?_⟩
  · rw [hacc, AcceptLoop_transient_only cfg s.Fd deadline script h]
    rfl
  · rw [hacc, AcceptLoop_transient_only cfg s.Fd Deadline.Passed script h]
    rfl
  · intro hout
    rw [hacc, Run.after_outcome] at hout
    exact AcceptLoop_terminates_only cfg s.Fd deadline other hout

/-- Witness of C19: three transient failures (`EINTR`, `ECONNABORTED`,
`ENETDOWN`) under a deadline that has already elapsed. -/
theorem accept_loops_on_transient_errors_witness :
    (Socket.ofFd 3).Accept ⟨true, true, true⟩ false Deadline.Passed
        [⟨-1, EINTR, Addr.invalid, WakeupSource.kDeadlineTimer⟩,
          ⟨-1, ECONNABORTED, Addr.invalid, WakeupSource.kDeadlineTimer⟩,
          ⟨-1, ENETDOWN, Addr.invalid, WakeupSource.kDeadlineTimer⟩]
      = ⟨[Effect.CancellationPoint, Effect.Lock DirectionKind.Read, Effect.sys_accept 3 true,
            Effect.sys_accept 3 true, Effect.sys_accept 3 true],
          Outcome.running⟩ :=
  (accept_loops_on_transient_errors ⟨true, true, true⟩ (Socket.ofFd 3) Deadline.Passed
    [⟨-1, EINTR, Addr.invalid, WakeupSource.kDeadlineTimer⟩,
      ⟨-1, ECONNABORTED, Addr.invalid, WakeupSource.kDeadlineTimer⟩,
      ⟨-1, ENETDOWN, Addr.invalid, WakeupSource.kDeadlineTimer⟩] [] rfl (by decide)).1

/-- C20: `Close` and `Release` both leave the socket closed. After `Close()`,
`IsOpen()` is false and `Fd()` is `kInvalidFd`, and `Close()` on a closed socket
changes nothing. `Release()` returns the value `Fd()` had before the call and
leaves `IsOpen()` false and `Fd()` equal to `kInvalidFd`; on an open socket it
invalidates the released control block, and on a closed socket it returns
`kInvalidFd`, invalidates nothing and changes nothing. -/
theorem close_and_release (s : Socket) :
    s.Close.IsOpen = false
      ∧ s.Close.Fd = kInvalidFd
      ∧ (s.IsOpen = false → s.Close = s)
      ∧ s.Release.2.outcome = Outcome.returned s.Fd
      ∧ s.Release.1.IsOpen = false
      ∧ s.Release.1.Fd = kInvalidFd
      ∧ (s.IsOpen = true → s.Release.2.trace = [Effect.Invalidate s.Fd])
      ∧ (s.IsOpen = false → s.Release = (s, ⟨[], Outcome.returned kInvalidFd⟩)) := by
  cases s with
  | mk fd_control_ peername_ sockname_ =>
    cases fd_control_ <;>
      simp [Socket.Close, Socket.Release, Socket.IsOpen, Socket.Fd]

/-- Witness of C20: an open socket on descriptor 7 with a cached peer address is
released: 7 is returned, the control block is invalidated, the socket is
closed. -/
theorem close_and_release_witness :
    (⟨some 7, ⟨AddrDomain.kInet, 5⟩, Addr.invalid⟩ : Socket).Release.2.trace
        = [Effect.Invalidate 7]
      ∧ (⟨some 7, ⟨AddrDomain.kInet, 5⟩, Addr.invalid⟩ : Socket).Release.2.outcome
        = Outcome.returned 7
      ∧ (⟨some 7, ⟨AddrDomain.kInet, 5⟩, Addr.invalid⟩ : Socket).Release.1
        = ⟨none, ⟨AddrDomain.kInet, 5⟩, Addr.invalid⟩ :=
  ⟨(close_and_release ⟨some 7, ⟨AddrDomain.kInet, 5⟩, Addr.invalid⟩).2.2.2.2.2.2.1 rfl,
    (close_and_release ⟨some 7, ⟨AddrDomain.kInet, 5⟩, Addr.invalid⟩).2.2.2.1, rfl⟩

end io

/-! ## Queue: lemmas -/

namespace BoundedQueue

variable {T : Type}

theorem admitted_append (a b : List (Event T)) :
    admitted (a ++ b) = admitted a ++ admitted b := by
  induction a with
  | nil => rfl
  | cons e es ih =>
    cases e with
    | push_returned task v ok => cases ok <;> simp [admitted, ih]
    | push_suspended task v => simp [admitted, ih]
    | pop_returned out => simp [admitted, ih]
    | pop_suspended => simp [admitted, ih]

theorem popped_append (a b : List (Event T)) :
    popped (a ++ b) = popped a ++ popped b := by
  induction a with
  | nil => rfl
  | cons e es ih =>
    cases e with
    | push_returned task v ok => simp [popped, ih]
    | push_suspended task v => simp [popped, ih]
    | pop_returned out => cases out <;> simp [popped, ih]
    | pop_suspended => simp [popped, ih]

/-- Completed push calls hand nothing to the consumer. -/
theorem popped_doneEvents (ds : List (Done T)) : popped (ds.map doneEvent) = [] := by
  induction ds with
  | nil => rfl
  | cons d ds ih => simp [doneEvent, popped, ih]

/-- Push calls that returned false admit nothing. -/
theorem admitted_failed (ws : List (BlockedPush T)) :
    admitted ((ws.map (fun w => (⟨w.task, w.value, false⟩ : Done T))).map doneEvent) = [] := by
  induction ws with
  | nil => rfl
  | cons w ws ih =>
    simp only [List.map_cons, doneEvent, admitted]
    exact ih

/-- A wake scan appends exactly the values of the calls it completes with
`true`, in order. -/
theorem WakeScan_entries (all : Bool) (ws : List (BlockedPush T)) (q : BoundedQueue T) :
    (WakeScan all ws q).queue.entries
      = q.entries ++ admitted ((WakeScan all ws q).done.map doneEvent) := by
  induction ws generalizing q with
  | nil => simp [WakeScan, admitted]
  | cons w ws ih =>
    unfold WakeScan
    cases hE : Evaluate q w.override_limit false with
    | enqueue =>
      cases all with
      | true => simp [ih, DoPush, doneEvent, admitted]
      | false => simp [DoPush, doneEvent, admitted]
    | fail => simp [ih, doneEvent, admitted]
    | wait => simp [ih]

/-- A wake scan changes nothing but the entries and the size counter. -/
theorem WakeScan_frame (all : Bool) (ws : List (BlockedPush T)) (q : BoundedQueue T) :
    (WakeScan all ws q).queue.consumer_alive = q.consumer_alive
      ∧ (WakeScan all ws q).queue.producers_dead = q.producers_dead
      ∧ (WakeScan all ws q).queue.producers_alive = q.producers_alive
      ∧ (WakeScan all ws q).queue.L = q.L
      ∧ (WakeScan all ws q).queue.blocked_popper = q.blocked_popper := by
  induction ws generalizing q with
  | nil => simp [WakeScan]
  | cons w ws ih =>
    unfold WakeScan
    cases hE : Evaluate q w.override_limit false with
    | enqueue =>
      cases all with
      | true => simpa [DoPush] using ih (DoPush q w.value)
      | false => simp [DoPush]
    | fail => simpa using ih q
    | wait => simpa using ih q

theorem WakeProducers_entries (all : Bool) (q : BoundedQueue T) :
    (WakeProducers all q).1.entries
      = q.entries ++ admitted ((WakeProducers all q).2.map doneEvent) := by
  simp only [WakeProducers]
  exact WakeScan_entries all q.blocked_pushers q

theorem WakeProducers_consumer_alive (all : Bool) (q : BoundedQueue T) :
    (WakeProducers all q).1.consumer_alive = q.consumer_alive := by
  simp only [WakeProducers]
  exact (WakeScan_frame all q.blocked_pushers q).1

/-- With nobody blocked a wake changes nothing. -/
theorem WakeProducers_no_waiters (all : Bool) (q : BoundedQueue T)
    (hb : q.blocked_pushers = []) : WakeProducers all q = (q, []) := by
  cases q
  simp only at hb
  subst hb
  simp [WakeProducers, WakeScan]

theorem PushImpl_flow (q : BoundedQueue T) (now task : Nat) (v : T) (lim : Option Nat)
    (d : Deadline) :
    q.entries ++ admitted (pushEvents task v (q.PushImpl now task v lim d)).2
      = popped (pushEvents task v (q.PushImpl now task v lim d)).2
        ++ (pushEvents task v (q.PushImpl now task v lim d)).1.entries := by
  unfold PushImpl
  cases Evaluate q lim (d.IsReached now) <;> simp [pushEvents, admitted, popped, DoPush]

theorem Pop_flow (q : BoundedQueue T) (now : Nat) (d : Deadline) :
    q.entries ++ admitted (popEvents (q.Pop now d)).2
      = popped (popEvents (q.Pop now d)).2 ++ (popEvents (q.Pop now d)).1.entries := by
  unfold Pop
  cases hq : q.entries with
  | nil =>
    by_cases h1 : q.producers_dead = true
    · simp [popEvents, admitted, popped, h1, hq]
    · by_cases h2 : d.IsReached now = true
      · simp [popEvents, admitted, popped, h1, h2, hq]
      · simp [popEvents, admitted, popped, h1, h2, hq]
  | cons v rest =>
    simp only [popEvents, admitted, popped, popped_doneEvents, List.nil_append,
      List.cons_append]
    rw [WakeProducers_entries]

/-- Every step keeps the balance: what was stored plus what the step admitted
is what the step handed out followed by what is stored afterwards. -/
theorem step_flow (q : BoundedQueue T) (op : Op T) :
    q.entries ++ admitted (q.step op).2 = popped (q.step op).2 ++ (q.step op).1.entries := by
  cases op with
  | Push now task v deadline => exact PushImpl_flow q now task v none deadline
  | PushNoblock task v => exact PushImpl_flow q 0 task v none Deadline.Passed
  | PushWithLimitOverride now task v max_len deadline =>
    exact PushImpl_flow q now task v (some max_len) deadline
  | Pop now deadline => exact Pop_flow q now deadline
  | PopNoblock => exact Pop_flow q 0 Deadline.Passed
  | ResumePop now =>
    simp only [step, ResumePop]
    cases hb : q.blocked_popper with
    | none => simp [admitted, popped]
    | some deadline => exact Pop_flow { q with blocked_popper := none } now deadline
  | SetMaxLength L' =>
    simp only [step, SetMaxLength, popped_doneEvents, List.nil_append]
    by_cases h : q.L < L'
    · simp only [h, if_true]
      rw [WakeProducers_entries]
    · simp [h, admitted]
  | GetProducer => simp [step, GetProducer, admitted, popped]
  | DropProducer =>
    simp only [step, DropProducer, admitted, popped, List.append_nil, List.nil_append]
    split
    · rfl
    · split <;> rfl
  | DropConsumer =>
    simp only [step, DropConsumer, popped_doneEvents, List.nil_append]
    rw [WakeProducers_entries]
  | DeadlineTimer now =>
    simp only [step, DeadlineTimer, popped_doneEvents, List.nil_append, admitted_failed,
      List.append_nil]

/-- The balance over a whole run. -/
theorem run_flow (q : BoundedQueue T) (ops : List (Op T)) :
    q.entries ++ admitted (q.run ops).2 = popped (q.run ops).2 ++ (q.run ops).1.entries := by
  induction ops generalizing q with
  | nil => simp [run, admitted, popped]
  | cons op ops ih =>
    simp only [run, admitted_append, popped_append]
    rw [← List.append_assoc, step_flow q op, List.append_assoc, ih (q.step op).1,
      List.append_assoc]

/-- A push on a queue whose consumer is dead returns false at once and changes
nothing. -/
theorem PushImpl_consumer_dead (q : BoundedQueue T) (now task : Nat) (v : T)
    (lim : Option Nat) (d : Deadline) (h : q.consumer_alive = false) :
    q.PushImpl now task v lim d = ⟨q, PushResult.returned false, []⟩ := by
  simp [PushImpl, Evaluate, h]

theorem PushImpl_consumer_alive (q : BoundedQueue T) (now task : Nat) (v : T)
    (lim : Option Nat) (d : Deadline) :
    (q.PushImpl now task v lim d).queue.consumer_alive = q.consumer_alive := by
  unfold PushImpl
  cases Evaluate q lim (d.IsReached now) <;> simp [DoPush]

theorem Pop_consumer_alive (q : BoundedQueue T) (now : Nat) (d : Deadline) :
    (q.Pop now d).queue.consumer_alive = q.consumer_alive := by
  unfold Pop
  cases hq : q.entries with
  | nil =>
    by_cases h1 : q.producers_dead = true
    · simp [h1]
    · by_cases h2 : d.IsReached now = true
      · simp [h1, h2]
      · simp [h1, h2]
  | cons v rest => simp [WakeProducers_consumer_alive]

/-- No call or event brings a dead consumer back. -/
theorem step_consumer_dead (q : BoundedQueue T) (op : Op T) (h : q.consumer_alive = false) :
    (q.step op).1.consumer_alive = false := by
  cases op with
  | Push now task v deadline =>
    simpa [step, pushEvents, Push, PushImpl_consumer_alive] using h
  | PushNoblock task v =>
    simpa [step, pushEvents, PushNoblock, Push, PushImpl_consumer_alive] using h
  | PushWithLimitOverride now task v max_len deadline =>
    simpa [step, pushEvents, PushWithLimitOverride, PushImpl_consumer_alive] using h
  | Pop now deadline => simpa [step, popEvents, Pop_consumer_alive] using h
  | PopNoblock => simpa [step, popEvents, PopNoblock, Pop_consumer_alive] using h
  | ResumePop now =>
    simp only [step, ResumePop]
    cases hb : q.blocked_popper with
    | none => simpa using h
    | some deadline => simpa [popEvents, Pop_consumer_alive] using h
  | SetMaxLength L' =>
    simp only [step, SetMaxLength]
    by_cases hl : q.L < L'
    · simpa [hl, WakeProducers_consumer_alive] using h
    · simpa [hl] using h
  | GetProducer => simpa [step, GetProducer] using h
  | DropProducer =>
    simp only [step, DropProducer]
    split
    · exact h
    · split <;> simpa using h
  | DropConsumer => simp [step, DropConsumer, WakeProducers_consumer_alive]
  | DeadlineTimer now => simpa [step, DeadlineTimer] using h

theorem run_consumer_dead (q : BoundedQueue T) (ops : List (Op T))
    (h : q.consumer_alive = false) : (q.run ops).1.consumer_alive = false := by
  induction ops generalizing q with
  | nil => simpa [run] using h
  | cons op ops ih => simpa [run] using ih (q.step op).1 (step_consumer_dead q op h)

theorem DropConsumer_consumer_dead (q : BoundedQueue T) :
    q.DropConsumer.1.consumer_alive = false := by
  simp [DropConsumer, WakeProducers_consumer_alive]

/-- A pop on a non-empty queue returns the oldest entry; what is stored
afterwards is the rest followed by the values of the producers it woke. -/
theorem Pop_cons (q : BoundedQueue T) (now : Nat) (d : Deadline) (v : T) (rest : List T)
    (hq : q.entries = v :: rest) :
    (q.Pop now d).result = PopResult.returned (some v)
      ∧ (q.Pop now d).queue.entries
        = rest ++ admitted ((q.Pop now d).woken.map doneEvent) := by
  unfold Pop
  rw [hq]
  exact ⟨rfl, WakeProducers_entries false { q with entries := rest, n := q.n - 1 }⟩

/-- With no producer blocked, a pop on a non-empty queue removes the oldest
entry, decrements `n` and wakes nobody. -/
theorem Pop_cons_no_waiters (q : BoundedQueue T) (now : Nat) (d : Deadline) (v : T)
    (rest : List T) (hq : q.entries = v :: rest) (hb : q.blocked_pushers = []) :
    q.Pop now d
      = ⟨{ q with entries := rest, n := q.n - 1 }, PopResult.returned (some v), []⟩ := by
  unfold Pop
  rw [hq]
  simp only
  rw [WakeProducers_no_waiters false { q with entries := rest, n := q.n - 1 } hb]

/-- As many pops as there are entries, more precisely no more pops than
entries: they return the oldest entries in order, and the entries not yet
popped stay at the front of the queue. -/
theorem PopMany_take (calls : List (Nat × Deadline)) (q : BoundedQueue T)
    (h : calls.length ≤ q.entries.length) :
    (q.PopMany calls).2
        = (q.entries.take calls.length).map (fun v => PopResult.returned (some v))
      ∧ ∃ extra, (q.PopMany calls).1.entries = q.entries.drop calls.length ++ extra := by
  induction calls generalizing q with
  | nil => exact ⟨by simp [PopMany], [], by simp [PopMany]⟩
  | cons c cs ih =>
    cases hq : q.entries with
    | nil => simp [hq] at h
    | cons v rest =>
      obtain ⟨hres, hent⟩ := Pop_cons q c.1 c.2 v rest hq
      have hlen : cs.length ≤ rest.length := by
        rw [hq] at h
        simpa using h
      have hlen1 : cs.length ≤ (q.Pop c.1 c.2).queue.entries.length := by
        rw [hent, List.length_append]
        omega
      obtain ⟨ih1, extra, ih2⟩ := ih (q.Pop c.1 c.2).queue hlen1
      refine ⟨?_, admitted ((q.Pop c.1 c.2).woken.map doneEvent) ++ extra, ?_⟩
      · simp only [PopMany, hres, ih1, hent, List.length_cons, List.take_succ_cons,
          List.map_cons, List.take_append_of_le_length hlen]
      · simp only [PopMany, ih2, hent, List.length_cons, List.drop_succ_cons,
          List.drop_append_of_le_length hlen, List.append_assoc]

/-- With no producer blocked, as many pops as there are entries return all of
them in order and leave the queue empty, everything else unchanged. -/
theorem PopMany_drain (calls : List (Nat × Deadline)) (q : BoundedQueue T)
    (hb : q.blocked_pushers = []) (h : calls.length = q.entries.length) :
    (q.PopMany calls).2 = q.entries.map (fun v => PopResult.returned (some v))
      ∧ (q.PopMany calls).1 = { q with entries := [], n := q.n - q.entries.length } := by
  induction calls generalizing q with
  | nil =>
    have he : q.entries = [] := List.length_eq_zero.mp (by simpa using h.symm)
    cases q
    simp only at he
    subst he
    simp [PopMany]
  | cons c cs ih =>
    cases hq : q.entries with
    | nil => simp [hq] at h
    | cons v rest =>
      have hpop := Pop_cons_no_waiters q c.1 c.2 v rest hq hb
      have hlen : cs.length = rest.length := by
        rw [hq] at h
        simpa using h
      obtain ⟨ih1, ih2⟩ := ih { q with entries := rest, n := q.n - 1 } hb hlen
      simp only [PopMany, hpop, ih1, ih2, List.map_cons, List.length_cons, true_and]
      simp only [Nat.sub_sub, Nat.add_comm 1]

/-! ## Queue: the scenarios of mpsc_queue_test.cpp

The model run on the call sequences of the tests observes what the tests
expect. -/

/-- The test `Block`: the consumer pops before a producer exists and waits;
each push is handed to it when it resumes; after the producer handle is dropped
its pop returns false. -/
theorem scenario_Block :
    ((Create 1000 : BoundedQueue Int).run
        [Op.Pop 0 Deadline.Unreachable, Op.GetProducer,
          Op.Push 0 0 0 Deadline.Unreachable, Op.ResumePop 0,
          Op.Pop 0 Deadline.Unreachable, Op.Push 0 0 1 Deadline.Unreachable, Op.ResumePop 0,
          Op.Pop 0 Deadline.Unreachable, Op.DropProducer, Op.ResumePop 0]).2
      = [Event.pop_suspended, Event.push_returned 0 0 true, Event.pop_returned (some 0),
          Event.pop_suspended, Event.push_returned 0 1 true, Event.pop_returned (some 1),
          Event.pop_suspended, Event.pop_returned none] := by
  decide

/-- The test `BlockMulti`: two pushes block on `L = 0`; `SetMaxLength(2)`
completes both; two pops succeed and a third `PopNoblock` fails. -/
theorem scenario_BlockMulti :
    ((Create 1000 : BoundedQueue Int).run
        [Op.SetMaxLength 0, Op.GetProducer, Op.Push 0 1 1 Deadline.Unreachable,
          Op.Push 0 2 1 Deadline.Unreachable, Op.PopNoblock, Op.SetMaxLength 2,
          Op.Pop 0 Deadline.Unreachable, Op.Pop 0 Deadline.Unreachable, Op.PopNoblock]).2
      = [Event.push_suspended 1 1, Event.push_suspended 2 1, Event.pop_returned none,
          Event.push_returned 1 1 true, Event.push_returned 2 1 true,
          Event.pop_returned (some 1), Event.pop_returned (some 1),
          Event.pop_returned none] := by
  decide

/-- The test `MaxLengthOverrideBlocking`, with `kTimeout` = 10: task 1 pushes 1
with a deadline, task 2 pushes 2 without one, task 3 pushes 6 with the limit
overridden to 1. -/
theorem scenario_MaxLengthOverrideBlocking :
    ((Create 1000 : BoundedQueue Int).run
        [Op.SetMaxLength 0, Op.GetProducer, Op.Push 0 1 1 ⟨some 10⟩,
          Op.Push 0 2 2 Deadline.Unreachable, Op.PushNoblock 0 3,
          Op.PushWithLimitOverride 0 0 4 1 Deadline.Unreachable, Op.PopNoblock,
          Op.DeadlineTimer 10, Op.SetMaxLength 1, Op.PopNoblock, Op.PushNoblock 0 5,
          Op.PushWithLimitOverride 10 3 6 1 Deadline.Unreachable, Op.SetMaxLength 2,
          Op.DeadlineTimer 20, Op.PushNoblock 0 7, Op.PopNoblock, Op.DeadlineTimer 30,
          Op.PopNoblock, Op.PopNoblock]).2
      = [Event.push_suspended 1 1, Event.push_suspended 2 2, Event.push_returned 0 3 false,
          Event.push_returned 0 4 true, Event.pop_returned (some 4),
          Event.push_returned 1 1 false, Event.push_returned 2 2 true,
          Event.pop_returned (some 2), Event.push_returned 0 5 true,
          Event.push_suspended 3 6, Event.push_returned 0 7 true,
          Event.pop_returned (some 5), Event.pop_returned (some 7),
          Event.push_returned 3 6 true, Event.pop_returned (some 6)] := by
  decide

/-! ## Queue: claims -/

/-- C1: the queue is FIFO. Start from a queue that stores nothing and apply any
sequence of calls and events (pushes of every kind by any tasks, pops, limit
changes, handle drops, deadline timers). The values of the push calls that
returned true, in the order in which they were admitted, are exactly the values
the successful `Pop`/`PopNoblock` calls returned, in the order of those calls,
followed by the entries still stored: nothing is lost, duplicated or
reordered. Once the queue has been drained the two sequences are equal. -/
theorem fifo_order (q : BoundedQueue T) (ops : List (Op T)) (h : q.entries = []) :
    admitted (q.run ops).2 = popped (q.run ops).2 ++ (q.run ops).1.entries
      ∧ ((q.run ops).1.entries = [] → popped (q.run ops).2 = admitted (q.run ops).2) := by
  have hflow := run_flow q ops
  rw [h, List.nil_append] at hflow
  refine ⟨hflow, ?_⟩
  intro hempty
  rw [hflow, hempty, List.append_nil]

/-- Witness of C1: two producers push 10, 20, 30 against a limit of 2 (the
third push suspends and is admitted by the first pop); three pops return 10,
20, 30. -/
theorem fifo_order_witness :
    admitted ((Create 2 : BoundedQueue Nat).run
        [Op.Push 0 1 10 Deadline.Unreachable, Op.Push 0 2 20 Deadline.Unreachable,
          Op.Push 0 1 30 Deadline.Unreachable, Op.Pop 0 Deadline.Unreachable,
          Op.PopNoblock, Op.PopNoblock]).2
      = [10, 20, 30] ++ [] :=
  (fifo_order (Create 2 : BoundedQueue Nat)
    [Op.Push 0 1 10 Deadline.Unreachable, Op.Push 0 2 20 Deadline.Unreachable,
      Op.Push 0 1 30 Deadline.Unreachable, Op.Pop 0 Deadline.Unreachable,
      Op.PopNoblock, Op.PopNoblock] rfl).1.trans (by decide)

/-- C7: producer death is terminal but loses no data. Take a queue holding `k`
entries whose last producer handle is dropped (`producers_alive` goes from 1 to
0; a producer suspended in a push still holds its handle, so no push is
suspended at that moment). The drop leaves the entries in place; the next `k`
`Pop` calls, whatever their deadlines, return true with those entries in order;
and the `Pop` after them returns false at once, for every deadline including
"no deadline", without suspending and without changing the queue. With `k = 0`
this is `Pop` on an empty queue whose producers are all dead. -/
theorem producer_death_drains (q : BoundedQueue T) (calls : List (Nat × Deadline))
    (now : Nat) (deadline : Deadline) (hp : q.producers_alive = 1)
    (hb : q.blocked_pushers = []) (hk : calls.length = q.entries.length) :
    q.DropProducer.entries = q.entries
      ∧ (q.DropProducer.PopMany calls).2
        = q.entries.map (fun v => PopResult.returned (some v))
      ∧ (q.DropProducer.PopMany calls).1.Pop now deadline
        = ⟨(q.DropProducer.PopMany calls).1, PopResult.returned none, []⟩ := by
  have hd : q.DropProducer = { q with producers_alive := 0, producers_dead := true } := by
    simp [DropProducer, hp]
  obtain ⟨h1, h2⟩ := PopMany_drain calls q.DropProducer (by rw [hd]; exact hb)
    (by rw [hd]; exact hk)
  refine ⟨by rw [hd], ?_, ?_⟩
  · rw [h1, hd]
  · rw [h2, hd]
    simp [Pop]

/-- Witness of C7: entries 1, 2 stored, the only producer handle dropped; two
pops with no deadline return 1 and 2, the third returns false. -/
theorem producer_death_drains_witness :
    ((⟨[1, 2], 2, 5, 1, false, true, [], none⟩ : BoundedQueue Nat).DropProducer.PopMany
        [(0, Deadline.Unreachable), (0, Deadline.Unreachable)]).2
        = [PopResult.returned (some 1), PopResult.returned (some 2)]
      ∧ (((⟨[1, 2], 2, 5, 1, false, true, [], none⟩ : BoundedQueue Nat).DropProducer.PopMany
          [(0, Deadline.Unreachable), (0, Deadline.Unreachable)]).1.Pop 0
            Deadline.Unreachable).result
        = PopResult.returned none :=
  ⟨(producer_death_drains (⟨[1, 2], 2, 5, 1, false, true, [], none⟩ : BoundedQueue Nat)
      [(0, Deadline.Unreachable), (0, Deadline.Unreachable)] 0 Deadline.Unreachable
      rfl rfl rfl).2.1,
    by decide⟩

/-- C8: consumer death is terminal. After the consumer handle has been dropped,
and after any further calls and events, every `Push`, `PushNoblock` and
`PushWithLimitOverride`, for every value, limit and deadline, returns false
without suspending, wakes nobody and leaves the whole queue state, so the
stored entries and `Size()`, unchanged. -/
theorem consumer_death_terminal (q : BoundedQueue T) (ops : List (Op T)) (now task : Nat)
    (v : T) (max_len : Nat) (deadline : Deadline) :
    (q.DropConsumer.1.run ops).1.Push now task v deadline
        = ⟨(q.DropConsumer.1.run ops).1, PushResult.returned false, []⟩
      ∧ (q.DropConsumer.1.run ops).1.PushNoblock task v
        = ⟨(q.DropConsumer.1.run ops).1, PushResult.returned false, []⟩
      ∧ (q.DropConsumer.1.run ops).1.PushWithLimitOverride now task v max_len deadline
        = ⟨(q.DropConsumer.1.run ops).1, PushResult.returned false, []⟩ := by
  have hdead := run_consumer_dead q.DropConsumer.1 ops (DropConsumer_consumer_dead q)
  exact ⟨PushImpl_consumer_dead _ now task v none deadline hdead,
    PushImpl_consumer_dead _ 0 task v none Deadline.Passed hdead,
    PushImpl_consumer_dead _ now task v (some max_len) deadline hdead⟩

/-- C9: `PushNoblock` never suspends; it returns true exactly when the consumer
is alive and `n < L`; when it returns true the value has been appended and `n`
has grown by one, nothing else changed; when it returns false the queue is
unchanged. With the limit set to 2 on a new queue, two `PushNoblock` calls
succeed and a third fails while both entries are stored; with `L = 0` every
`PushNoblock` fails. -/
theorem push_noblock_admission (q : BoundedQueue T) (task : Nat) (v : T) :
    (q.PushNoblock task v).result ≠ PushResult.suspended
      ∧ ((q.PushNoblock task v).result = PushResult.returned true
          ↔ (q.consumer_alive = true ∧ q.n < q.L))
      ∧ ((q.PushNoblock task v).result = PushResult.returned true →
          (q.PushNoblock task v).queue = { q with entries := q.entries ++ [v], n := q.n + 1 }
            ∧ (q.PushNoblock task v).queue.Size = q.Size + 1)
      ∧ ((q.PushNoblock task v).result = PushResult.returned false →
          (q.PushNoblock task v).queue = q)
      ∧ (∀ (cap : Nat) (a b c : T),
          (((Create cap : BoundedQueue T).SetMaxLength 2).1.PushNoblock task a).result
              = PushResult.returned true
            ∧ ((((Create cap : BoundedQueue T).SetMaxLength 2).1.PushNoblock task a).queue.PushNoblock
                task b).result = PushResult.returned true
            ∧ (((((Create cap : BoundedQueue T).SetMaxLength 2).1.PushNoblock task a).queue.PushNoblock
                task b).queue.PushNoblock task c)
              = ⟨⟨[a, b], 2, 2, 0, false, true, [], none⟩, PushResult.returned false, []⟩)
      ∧ (q.L = 0 → (q.PushNoblock task v).result = PushResult.returned false) := by
  refine ⟨?_, ?_, ?_, ?_, ?_, ?_⟩
  · by_cases hc : q.consumer_alive = true <;> by_cases hn : q.n < q.L <;>
      simp [PushNoblock, Push, PushImpl, Evaluate, Deadline.Passed, Deadline.IsReached, hc, hn]
  · by_cases hc : q.consumer_alive = true <;> by_cases hn : q.n < q.L <;>
      simp [PushNoblock, Push, PushImpl, Evaluate, Deadline.Passed, Deadline.IsReached, hc, hn]
  · by_cases hc : q.consumer_alive = true <;> by_cases hn : q.n < q.L <;>
      simp [PushNoblock, Push, PushImpl, Evaluate, Deadline.Passed, Deadline.IsReached, hc, hn,
        DoPush, Size]
  · by_cases hc : q.consumer_alive = true <;> by_cases hn : q.n < q.L <;>
      simp [PushNoblock, Push, PushImpl, Evaluate, Deadline.Passed, Deadline.IsReached, hc, hn]
  · intro cap a b c
    by_cases hcap : cap < 2 <;>
      simp [Create, SetMaxLength, WakeProducers, WakeScan, hcap, PushNoblock, Push, PushImpl,
        Evaluate, Deadline.Passed, Deadline.IsReached, DoPush]
  · intro hL
    by_cases hc : q.consumer_alive = true <;>
      simp [PushNoblock, Push, PushImpl, Evaluate, Deadline.Passed, Deadline.IsReached, hc, hL]

/-- Witness of C9: the third `PushNoblock` of the test `Noblock`, on a queue
with `L = 2` that stores two entries and has a live consumer, fails. -/
theorem push_noblock_admission_witness :
    ((⟨[0, 1], 2, 2, 1, false, true, [], none⟩ : BoundedQueue Nat).PushNoblock 0 2).queue
      = ⟨[0, 1], 2, 2, 1, false, true, [], none⟩ :=
  (push_noblock_admission (⟨[0, 1], 2, 2, 1, false, true, [], none⟩ : BoundedQueue Nat)
    0 2).2.2.2.1 (by decide)

/-- C10: `PushWithLimitOverride(v, m)` admits against `m`, not `L`. On every
queue with a live consumer and `n < m`, whatever `L` is (also `L <= n`), it
returns true at once, appends `v` behind the stored entries and increments `n`.
The pops that follow return the entries stored before the call in order and
then `v`; on a queue that stored nothing the very next pop returns `v`. -/
theorem push_with_limit_override_admits (q : BoundedQueue T) (now task : Nat) (v : T)
    (m : Nat) (deadline : Deadline) (calls : List (Nat × Deadline)) (now' : Nat)
    (deadline' : Deadline) (hc : q.consumer_alive = true) (hn : q.n < m)
    (hk : calls.length = q.entries.length) :
    q.PushWithLimitOverride now task v m deadline
        = ⟨{ q with entries := q.entries ++ [v], n := q.n + 1 }, PushResult.returned true, []⟩
      ∧ ((q.PushWithLimitOverride now task v m deadline).queue.PopMany calls).2
        = q.entries.map (fun x => PopResult.returned (some x))
      ∧ (((q.PushWithLimitOverride now task v m deadline).queue.PopMany calls).1.Pop now'
          deadline').result = PopResult.returned (some v) := by
  have hpush : q.PushWithLimitOverride now task v m deadline
      = ⟨{ q with entries := q.entries ++ [v], n := q.n + 1 },
          PushResult.returned true, []⟩ := by
    simp [PushWithLimitOverride, PushImpl, Evaluate, hc, hn, DoPush]
  refine ⟨hpush, ?_, ?_⟩
  · rw [hpush]
    obtain ⟨h1, -⟩ := PopMany_take calls
      ({ q with entries := q.entries ++ [v], n := q.n + 1 } : BoundedQueue T)
      (by simp [hk])
    rw [h1]
    simp [hk]
  · rw [hpush]
    obtain ⟨-, extra, h2⟩ := PopMany_take calls
      ({ q with entries := q.entries ++ [v], n := q.n + 1 } : BoundedQueue T)
      (by simp [hk])
    have h3 : (PopMany ({ q with entries := q.entries ++ [v], n := q.n + 1 } : BoundedQueue T)
        calls).1.entries = v :: extra := by
      rw [h2]
      simp [hk]
    exact (Pop_cons _ now' deadline' v extra h3).1

/-- Witness of C10: the test `MaxLengthOverride`: with `L = 0` and nothing
stored, `PushWithLimitOverride(2, 1)` is admitted and the next `PopNoblock`
returns 2. -/
theorem push_with_limit_override_admits_witness :
    (((Create 0 : BoundedQueue Nat).PushNoblock 0 1).result = PushResult.returned false)
      ∧ ((((Create 0 : BoundedQueue Nat).PushWithLimitOverride 0 0 2 1
            Deadline.Unreachable).queue.PopMany []).1.Pop 0 Deadline.Passed).result
        = PopResult.returned (some 2) :=
  ⟨by decide,
    (push_with_limit_override_admits (Create 0 : BoundedQueue Nat) 0 0 2 1
      Deadline.Unreachable [] 0 Deadline.Passed rfl (by decide) rfl).2.2⟩

/-! ## Queue: lemmas on wakes, the size counter and timeouts -/

/-- While the consumer is alive and `m <= n`, a wake scan keeps every blocked
`PushWithLimitOverride` with limit `m` on the wait list, in order, whatever `L`
is. -/
theorem WakeScan_keeps_limit (all : Bool) (m : Nat) (ws : List (BlockedPush T))
    (q : BoundedQueue T) (hc : q.consumer_alive = true) (hm : m ≤ q.n) :
    (WakeScan all ws q).still_blocked.filter (hasLimit m) = ws.filter (hasLimit m) := by
  induction ws generalizing q with
  | nil => rfl
  | cons w ws ih =>
    unfold WakeScan
    cases hE : Evaluate q w.override_limit false with
    | enqueue =>
      have hw : hasLimit m w = false := by
        cases hlim : w.override_limit with
        | none => simp [hasLimit, hlim]
        | some k =>
          have hk : k ≠ m := by
            intro hkm
            simp [Evaluate, hc, hlim, hkm] at hE
            omega
          simp [hasLimit, hlim, hk]
      cases all with
      | true =>
        simp only [if_true, List.filter_cons, hw]
        exact ih (DoPush q w.value) hc (by simp only [DoPush]; omega)
      | false => simp [List.filter_cons, hw]
    | fail =>
      exfalso
      simp only [Evaluate, hc, Bool.not_true, Bool.false_eq_true, if_false] at hE
      split at hE <;> exact Verdict.noConfusion hE
    | wait =>
      simp only [List.filter_cons]
      rw [ih q hc hm]

/-- A wake scan adds to the size counter one for each call it completes with
`true`. -/
theorem WakeScan_n (all : Bool) (ws : List (BlockedPush T)) (q : BoundedQueue T) :
    (WakeScan all ws q).queue.n
      = q.n + (admitted ((WakeScan all ws q).done.map doneEvent)).length := by
  induction ws generalizing q with
  | nil => simp [WakeScan, admitted]
  | cons w ws ih =>
    unfold WakeScan
    cases hE : Evaluate q w.override_limit false with
    | enqueue =>
      cases all with
      | true =>
        simp only [if_true, List.map_cons, doneEvent, admitted, List.length_cons]
        rw [ih (DoPush q w.value)]
        simp only [DoPush, doneEvent]
        omega
      | false => simp [DoPush, doneEvent, admitted]
    | fail =>
      simp only [List.map_cons, doneEvent, admitted]
      exact ih q
    | wait => exact ih q

/-- The waiters a wake scan leaves blocked, and the calls it completes, keep
the order in which they blocked. -/
theorem WakeScan_order (all : Bool) (ws : List (BlockedPush T)) (q : BoundedQueue T) :
    List.Sublist (WakeScan all ws q).still_blocked ws
      ∧ List.Sublist ((WakeScan all ws q).done.map (fun d => (d.task, d.value)))
          (ws.map (fun w => (w.task, w.value))) := by
  induction ws generalizing q with
  | nil => exact ⟨List.Sublist.refl _, List.Sublist.refl _⟩
  | cons w ws ih =>
    unfold WakeScan
    cases hE : Evaluate q w.override_limit false with
    | enqueue =>
      cases all with
      | true =>
        obtain ⟨h1, h2⟩ := ih (DoPush q w.value)
        exact ⟨List.Sublist.cons _ h1, List.Sublist.cons₂ _ h2⟩
      | false =>
        refine ⟨List.Sublist.cons _ (List.Sublist.refl _), ?_⟩
        simp only [if_false, Bool.false_eq_true, List.map_cons, List.map_nil]
        exact List.Sublist.cons₂ _ (List.nil_sublist _)
    | fail =>
      obtain ⟨h1, h2⟩ := ih q
      exact ⟨List.Sublist.cons _ h1, List.Sublist.cons₂ _ h2⟩
    | wait =>
      obtain ⟨h1, h2⟩ := ih q
      exact ⟨List.Sublist.cons₂ _ h1, List.Sublist.cons _ h2⟩

/-- With the consumer alive and only plain `Push` calls blocked, a full wake
scan completes the first `L - n` of them in blocking order and leaves the
others blocked. -/
theorem WakeScan_normal (ws : List (BlockedPush T)) (q : BoundedQueue T)
    (hc : q.consumer_alive = true) (hn : ∀ w ∈ ws, w.override_limit = none) :
    (WakeScan true ws q).still_blocked = ws.drop (q.L - q.n)
      ∧ (WakeScan true ws q).done
        = (ws.take (q.L - q.n)).map (fun w => (⟨w.task, w.value, true⟩ : Done T))
      ∧ (WakeScan true ws q).queue.entries
        = q.entries ++ (ws.take (q.L - q.n)).map (fun w => w.value) := by
  induction ws generalizing q with
  | nil => simp [WakeScan]
  | cons w ws ih =>
    have hw : w.override_limit = none := hn w (List.mem_cons_self w ws)
    have hrest : ∀ x ∈ ws, x.override_limit = none :=
      fun x hx => hn x (List.mem_cons_of_mem w hx)
    unfold WakeScan
    by_cases hlt : q.n < q.L
    · have hE : Evaluate q w.override_limit false = Verdict.enqueue := by
        simp [Evaluate, hc, hw, hlt]
      obtain ⟨k, hk⟩ : ∃ k, q.L - q.n = k + 1 := ⟨q.L - q.n - 1, by omega⟩
      have hk' : (DoPush q w.value).L - (DoPush q w.value).n = k := by
        simp only [DoPush]
        omega
      obtain ⟨ih1, ih2, ih3⟩ := ih (DoPush q w.value) hc hrest
      rw [hE, hk]
      simp only [if_true, List.drop_succ_cons, List.take_succ_cons, List.map_cons]
      rw [ih1, ih2, ih3, hk']
      simp [DoPush]
    · have hE : Evaluate q w.override_limit false = Verdict.wait := by
        simp [Evaluate, hc, hw, hlt]
      have hk : q.L - q.n = 0 := by omega
      obtain ⟨ih1, ih2, ih3⟩ := ih q hc hrest
      rw [hE, hk]
      rw [hk] at ih1 ih2 ih3
      simp only [List.drop_zero, List.take_zero, List.map_nil, List.append_nil]
      rw [ih1, ih2, ih3]
      simp

/-- One step of a full wake scan. -/
theorem WakeScan_cons (w : BlockedPush T) (ws : List (BlockedPush T)) (q : BoundedQueue T) :
    WakeScan true (w :: ws) q
      = match Evaluate q w.override_limit false with
        | Verdict.enqueue =>
          ⟨(WakeScan true ws (DoPush q w.value)).still_blocked,
            (WakeScan true ws (DoPush q w.value)).queue,
            ⟨w.task, w.value, true⟩ :: (WakeScan true ws (DoPush q w.value)).done⟩
        | Verdict.fail =>
          ⟨(WakeScan true ws q).still_blocked, (WakeScan true ws q).queue,
            ⟨w.task, w.value, false⟩ :: (WakeScan true ws q).done⟩
        | Verdict.wait =>
          ⟨w :: (WakeScan true ws q).still_blocked, (WakeScan true ws q).queue,
            (WakeScan true ws q).done⟩ := by
  conv_lhs => unfold WakeScan
  cases Evaluate q w.override_limit false <;> rfl

/-- A full wake scan serves the waiters one after the other: scanning
`pre ++ post` is scanning `pre` and then scanning `post` on the queue as the
scan of `pre` left it. -/
theorem WakeScan_append (pre post : List (BlockedPush T)) (q : BoundedQueue T) :
    WakeScan true (pre ++ post) q
      = ⟨(WakeScan true pre q).still_blocked
            ++ (WakeScan true post (WakeScan true pre q).queue).still_blocked,
          (WakeScan true post (WakeScan true pre q).queue).queue,
          (WakeScan true pre q).done
            ++ (WakeScan true post (WakeScan true pre q).queue).done⟩ := by
  induction pre generalizing q with
  | nil => simp [WakeScan]
  | cons w ws ih =>
    rw [List.cons_append, WakeScan_cons w (ws ++ post) q, WakeScan_cons w ws q]
    cases hE : Evaluate q w.override_limit false with
    | enqueue =>
      simp only []
      rw [ih (DoPush q w.value)]
      simp
    | fail =>
      simp only []
      rw [ih q]
      simp
    | wait =>
      simp only []
      rw [ih q]
      simp

/-- With the consumer alive, a full wake scan leaves blocked only waiters whose
admission test fails on the queue as the scan leaves it. -/
theorem WakeScan_blocked_fail (ws : List (BlockedPush T)) (q : BoundedQueue T)
    (hc : q.consumer_alive = true) :
    ∀ w ∈ (WakeScan true ws q).still_blocked,
      ¬ (WakeScan true ws q).queue.n < w.override_limit.getD q.L := by
  induction ws generalizing q with
  | nil => simp [WakeScan]
  | cons w ws ih =>
    have hn := WakeScan_n true ws q
    unfold WakeScan
    cases hE : Evaluate q w.override_limit false with
    | enqueue =>
      simp only [if_true]
      exact ih (DoPush q w.value) hc
    | fail =>
      simp only []
      exact ih q hc
    | wait =>
      simp only [List.mem_cons]
      intro x hx
      rcases hx with hx | hx
      · subst hx
        have hq : ¬ q.n < x.override_limit.getD q.L := by
          intro hlt
          simp [Evaluate, hc, hlt] at hE
        omega
      · exact ih q hc x hx

/-- With the consumer alive, every call a wake scan completes returns true, and
the completed calls and the waiters left blocked are together all the
waiters. -/
theorem WakeScan_done_ok (ws : List (BlockedPush T)) (q : BoundedQueue T)
    (hc : q.consumer_alive = true) :
    (∀ d ∈ (WakeScan true ws q).done, d.ok = true)
      ∧ (WakeScan true ws q).done.length + (WakeScan true ws q).still_blocked.length
        = ws.length := by
  induction ws generalizing q with
  | nil => simp [WakeScan]
  | cons w ws ih =>
    unfold WakeScan
    cases hE : Evaluate q w.override_limit false with
    | enqueue =>
      obtain ⟨h1, h2⟩ := ih (DoPush q w.value) hc
      simp only [if_true, List.mem_cons, List.length_cons]
      refine ⟨?_, by omega⟩
      intro d hd
      rcases hd with hd | hd
      · rw [hd]
      · exact h1 d hd
    | fail =>
      exfalso
      simp only [Evaluate, hc, Bool.not_true, Bool.false_eq_true, if_false] at hE
      split at hE <;> exact Verdict.noConfusion hE
    | wait =>
      obtain ⟨h1, h2⟩ := ih q hc
      simp only [List.length_cons]
      exact ⟨h1, by omega⟩

/-! ## Queue: claims on blocked producers, the size counter and timeouts -/

/-- C11: a blocked `PushWithLimitOverride(v, m)` is re-evaluated against the
current size at every wake and is admitted only when `n < m`, whatever `L` has
become. On a queue with a live consumer:
* while `m <= n`, `SetMaxLength` with any new limit leaves every blocked push
  with override limit `m` on the wait list;
* a pop that leaves `m` or more entries leaves them on the wait list as well,
  and so does a `PushNoblock` of another value;
* the pop that brings the size below `m` admits the first blocked push when its
  override limit is `m`: that call returns true and its value is enqueued.
With `m = 1` and one entry `a` stored: the push of `v` (no deadline) suspends;
raising `L` to 2, pushing `b` and popping `a` do not admit it; popping `b`
empties the queue and admits it; the next pop returns `v`. -/
theorem override_waiter_rechecks_limit (q : BoundedQueue T) (m task : Nat) (v x a b : T)
    (dl : Deadline) (rest : List T) (ws : List (BlockedPush T))
    (hc : q.consumer_alive = true) :
    (m ≤ q.n → ∀ L',
        (q.SetMaxLength L').1.blocked_pushers.filter (hasLimit m)
          = q.blocked_pushers.filter (hasLimit m))
      ∧ (m ≤ q.n - 1 → ∀ now d,
        (q.Pop now d).queue.blocked_pushers.filter (hasLimit m)
          = q.blocked_pushers.filter (hasLimit m))
      ∧ (∀ task' v', (q.PushNoblock task' v').queue.blocked_pushers = q.blocked_pushers)
      ∧ (q.blocked_pushers = ⟨task, v, some m, dl⟩ :: ws → q.entries = x :: rest →
          q.n - 1 < m → ∀ now d,
        q.Pop now d
          = ⟨{ q with entries := rest ++ [v], n := q.n - 1 + 1, blocked_pushers := ws },
              PopResult.returned (some x), [⟨task, v, true⟩]⟩)
      ∧ ((⟨[a], 1, 1, 1, false, true, [], none⟩ : BoundedQueue T).run
            [Op.PushWithLimitOverride 0 task v 1 Deadline.Unreachable, Op.SetMaxLength 2,
              Op.PushNoblock 0 b,
              Op.PopNoblock, Op.PopNoblock, Op.PopNoblock]).2
          = [Event.push_suspended task v, Event.push_returned 0 b true,
              Event.pop_returned (some a), Event.pop_returned (some b),
              Event.push_returned task v true, Event.pop_returned (some v)] := by
  refine ⟨?_, ?_, ?_, ?_, ?_⟩
  · intro hm L'
    unfold SetMaxLength
    by_cases hl : q.L < L'
    · rw [if_pos hl]
      simp only [WakeProducers]
      exact WakeScan_keeps_limit true m q.blocked_pushers { q with L := L' } hc hm
    · rw [if_neg hl]
  · intro hm now d
    unfold Pop
    cases hq : q.entries with
    | nil =>
      by_cases h1 : q.producers_dead = true
      · simp [h1]
      · by_cases h2 : d.IsReached now = true
        · simp [h1, h2]
        · simp [h1, h2]
    | cons y ys =>
      simp only [WakeProducers]
      exact WakeScan_keeps_limit false m q.blocked_pushers
        { q with entries := ys, n := q.n - 1 } hc hm
  · intro task' v'
    by_cases hn : q.n < q.L <;>
      simp [PushNoblock, Push, PushImpl, Evaluate, Deadline.Passed, Deadline.IsReached, hc, hn,
        DoPush]
  · intro hb hq hm now d
    unfold Pop
    rw [hq]
    simp [WakeProducers, WakeScan, hb, Evaluate, hc, hm, DoPush]
  · simp [run, step, pushEvents, popEvents, PushWithLimitOverride, PushNoblock, Push, PushImpl,
      PopNoblock, Pop, SetMaxLength, WakeProducers, WakeScan, Evaluate, DoPush, doneEvent,
      Deadline.Passed, Deadline.Unreachable, Deadline.IsReached]

/-- Witness of C11: the state of the test `MaxLengthOverrideBlocking` after
`PushNoblock(5)` and `SetMaxLength(2)`, with the push of 6 under limit 1
blocked: popping the one entry admits it. -/
theorem override_waiter_rechecks_limit_witness :
    (⟨[5], 1, 2, 1, false, true, [⟨3, 6, some 1, Deadline.Unreachable⟩], none⟩ :
        BoundedQueue Int).Pop 0 Deadline.Passed
      = ⟨⟨[6], 1, 2, 1, false, true, [], none⟩, PopResult.returned (some 5), [⟨3, 6, true⟩]⟩ :=
  (override_waiter_rechecks_limit
    (⟨[5], 1, 2, 1, false, true, [⟨3, 6, some 1, Deadline.Unreachable⟩], none⟩ :
      BoundedQueue Int) 1 3 6 5 0 0 Deadline.Unreachable [] [] rfl).2.2.2.1 rfl rfl
    (by decide) 0 Deadline.Passed

/-- C12: `SetMaxLength(L')` replaces `L`; when `L'` is not larger nobody is
woken. When it wakes, the calls it completes and the waiters it leaves blocked
keep the order in which they blocked, and the values of the calls completed
with true are appended to the entries in that order. With a live consumer and
only plain `Push` calls blocked, raising the limit completes the first
`L' - n` of them in blocking order and the others stay blocked. With `L = 0`
and two producers blocked in `Push` of `a` and `b`, `SetMaxLength(2)` completes
both, two pops then return `a` and `b`, and a third `PopNoblock` returns
false.
For any mix of blocked `Push` and `PushWithLimitOverride` calls, with a live
consumer and a raised limit: each waiter `w` is served at its turn, after the
waiters that blocked before it (`pre`) and before those that blocked after it
(`post`); it is completed with true exactly when its admission test passes on
the queue as the earlier waiters left it (`n` below the new limit, or below its
own override limit), and stays blocked otherwise; every call completed
returns true; completed calls and blocked waiters together are all the waiters;
and no waiter whose admission test passes on the resulting queue is left
blocked. -/
theorem set_max_length_wakes_in_order (q : BoundedQueue T) (L' t1 t2 : Nat) (a b : T)
    (d1 d2 : Deadline) (pre post : List (BlockedPush T)) (w : BlockedPush T) :
    (q.SetMaxLength L').1.L = L'
      ∧ (L' ≤ q.L → q.SetMaxLength L' = ({ q with L := L' }, []))
      ∧ (q.SetMaxLength L').1.entries
          = q.entries ++ admitted ((q.SetMaxLength L').2.map doneEvent)
      ∧ List.Sublist ((q.SetMaxLength L').2.map (fun d => (d.task, d.value)))
          (q.blocked_pushers.map (fun w => (w.task, w.value)))
      ∧ List.Sublist (q.SetMaxLength L').1.blocked_pushers q.blocked_pushers
      ∧ (q.consumer_alive = true → q.L < L' →
          (∀ w ∈ q.blocked_pushers, w.override_limit = none) →
          (q.SetMaxLength L').2
              = (q.blocked_pushers.take (L' - q.n)).map
                  (fun w => (⟨w.task, w.value, true⟩ : Done T))
            ∧ (q.SetMaxLength L').1.blocked_pushers = q.blocked_pushers.drop (L' - q.n)
            ∧ (q.SetMaxLength L').1.entries
              = q.entries ++ (q.blocked_pushers.take (L' - q.n)).map (fun w => w.value))
      ∧ ((⟨[], 0, 0, 1, false, true, [⟨t1, a, none, d1⟩, ⟨t2, b, none, d2⟩], none⟩ :
            BoundedQueue T).run
            [Op.SetMaxLength 2, Op.Pop 0 Deadline.Unreachable, Op.Pop 0 Deadline.Unreachable,
              Op.PopNoblock]).2
          = [Event.push_returned t1 a true, Event.push_returned t2 b true,
              Event.pop_returned (some a), Event.pop_returned (some b),
              Event.pop_returned none]
      ∧ (q.consumer_alive = true → q.L < L' → q.blocked_pushers = pre ++ w :: post →
          ((WakeScan true pre { q with L := L' }).queue.n < w.override_limit.getD L' →
              (q.SetMaxLength L').2
                  = (WakeScan true pre { q with L := L' }).done
                    ++ ⟨w.task, w.value, true⟩
                      :: (WakeScan true post
                          (DoPush (WakeScan true pre { q with L := L' }).queue w.value)).done
                ∧ (q.SetMaxLength L').1.blocked_pushers
                  = (WakeScan true pre { q with L := L' }).still_blocked
                    ++ (WakeScan true post
                        (DoPush (WakeScan true pre { q with L := L' }).queue
                          w.value)).still_blocked)
            ∧ (¬ (WakeScan true pre { q with L := L' }).queue.n < w.override_limit.getD L' →
              (q.SetMaxLength L').2
                  = (WakeScan true pre { q with L := L' }).done
                    ++ (WakeScan true post (WakeScan true pre { q with L := L' }).queue).done
                ∧ (q.SetMaxLength L').1.blocked_pushers
                  = (WakeScan true pre { q with L := L' }).still_blocked
                    ++ w :: (WakeScan true post
                        (WakeScan true pre { q with L := L' }).queue).still_blocked))
      ∧ (q.consumer_alive = true → q.L < L' →
          (∀ x ∈ (q.SetMaxLength L').1.blocked_pushers,
              ¬ (q.SetMaxLength L').1.n < x.override_limit.getD L')
            ∧ (∀ d ∈ (q.SetMaxLength L').2, d.ok = true)
            ∧ (q.SetMaxLength L').2.length + (q.SetMaxLength L').1.blocked_pushers.length
              = q.blocked_pushers.length) := by
  refine ⟨?_, ?_, ?_, ?_, ?_, ?_, ?_, ?_, ?_⟩
  · unfold SetMaxLength
    by_cases hl : q.L < L'
    · rw [if_pos hl]
      simp only [WakeProducers]
      exact (WakeScan_frame true q.blocked_pushers { q with L := L' }).2.2.2.1
    · rw [if_neg hl]
  · intro hl
    unfold SetMaxLength
    rw [if_neg (by omega)]
  · unfold SetMaxLength
    by_cases hl : q.L < L'
    · rw [if_pos hl]
      exact WakeProducers_entries true { q with L := L' }
    · rw [if_neg hl]
      simp [admitted]
  · unfold SetMaxLength
    by_cases hl : q.L < L'
    · rw [if_pos hl]
      simp only [WakeProducers]
      exact (WakeScan_order true q.blocked_pushers { q with L := L' }).2
    · rw [if_neg hl]
      exact List.nil_sublist _
  · unfold SetMaxLength
    by_cases hl : q.L < L'
    · rw [if_pos hl]
      simp only [WakeProducers]
      exact (WakeScan_order true q.blocked_pushers { q with L := L' }).1
    · rw [if_neg hl]
  · intro hc hl hn
    obtain ⟨h1, h2, h3⟩ := WakeScan_normal q.blocked_pushers { q with L := L' } hc hn
    unfold SetMaxLength
    rw [if_pos hl]
    simp only [WakeProducers]
    exact ⟨h2, h1, h3⟩
  · simp [run, step, popEvents, PopNoblock, Pop, SetMaxLength, WakeProducers, WakeScan, Evaluate,
      DoPush, doneEvent, Deadline.Passed, Deadline.Unreachable, Deadline.IsReached]
  · intro hc hl hbp
    have hfr := WakeScan_frame true pre ({ q with L := L' } : BoundedQueue T)
    have hca : (WakeScan true pre ({ q with L := L' } : BoundedQueue T)).queue.consumer_alive
        = true := by
      rw [hfr.1]
      exact hc
    have hset : q.SetMaxLength L'
        = ({ (WakeScan true (pre ++ w :: post) { q with L := L' }).queue with
              blocked_pushers :=
                (WakeScan true (pre ++ w :: post) { q with L := L' }).still_blocked },
            (WakeScan true (pre ++ w :: post) { q with L := L' }).done) := by
      unfold SetMaxLength
      rw [if_pos hl]
      simp only [WakeProducers, hbp]
    constructor
    · intro hpass
      have hE : Evaluate (WakeScan true pre ({ q with L := L' } : BoundedQueue T)).queue
          w.override_limit false = Verdict.enqueue := by
        have hpass' : (WakeScan true pre ({ q with L := L' } : BoundedQueue T)).queue.n
            < w.override_limit.getD
              (WakeScan true pre ({ q with L := L' } : BoundedQueue T)).queue.L := by
          rw [hfr.2.2.2.1]
          exact hpass
        unfold Evaluate
        rw [hca]
        simp only [Bool.not_true, Bool.false_eq_true, if_false]
        rw [if_pos hpass']
      rw [hset, WakeScan_append pre (w :: post), WakeScan_cons w post, hE]
      exact ⟨rfl, rfl⟩
    · intro hfail
      have hE : Evaluate (WakeScan true pre ({ q with L := L' } : BoundedQueue T)).queue
          w.override_limit false = Verdict.wait := by
        have hfail' : ¬ (WakeScan true pre ({ q with L := L' } : BoundedQueue T)).queue.n
            < w.override_limit.getD
              (WakeScan true pre ({ q with L := L' } : BoundedQueue T)).queue.L := by
          rw [hfr.2.2.2.1]
          exact hfail
        unfold Evaluate
        rw [hca]
        simp only [Bool.not_true, Bool.false_eq_true, if_false]
        rw [if_neg hfail']
      rw [hset, WakeScan_append pre (w :: post), WakeScan_cons w post, hE]
      exact ⟨rfl, rfl⟩
  · intro hc hl
    have hset : q.SetMaxLength L'
        = ({ (WakeScan true q.blocked_pushers { q with L := L' }).queue with
              blocked_pushers :=
                (WakeScan true q.blocked_pushers { q with L := L' }).still_blocked },
            (WakeScan true q.blocked_pushers { q with L := L' }).done) := by
      unfold SetMaxLength
      rw [if_pos hl]
      simp only [WakeProducers]
    rw [hset]
    refine ⟨?_, ?_, ?_⟩
    · exact WakeScan_blocked_fail q.blocked_pushers ({ q with L := L' } : BoundedQueue T) hc
    · exact (WakeScan_done_ok q.blocked_pushers ({ q with L := L' } : BoundedQueue T) hc).1
    · exact (WakeScan_done_ok q.blocked_pushers ({ q with L := L' } : BoundedQueue T) hc).2

/-- Witness of C12: three plain pushes blocked on `L = 0`: `SetMaxLength(2)`
completes the first two in blocking order and the third stays blocked. And a
`PushWithLimitOverride` with limit 0 blocked ahead of a plain `Push`:
`SetMaxLength(5)` completes the plain push behind it and leaves it blocked. -/
theorem set_max_length_wakes_in_order_witness :
    ((⟨[], 0, 0, 1, false, true,
          [⟨1, 10, none, Deadline.Unreachable⟩, ⟨2, 20, none, Deadline.Unreachable⟩,
            ⟨3, 30, none, Deadline.Unreachable⟩], none⟩ : BoundedQueue Int).SetMaxLength 2).2
        = [⟨1, 10, true⟩, ⟨2, 20, true⟩]
      ∧ ((⟨[], 0, 0, 1, false, true,
          [⟨1, 10, some 0, Deadline.Unreachable⟩, ⟨2, 20, none, Deadline.Unreachable⟩],
            none⟩ : BoundedQueue Int).SetMaxLength 5).2
        = [⟨2, 20, true⟩]
      ∧ ((⟨[], 0, 0, 1, false, true,
          [⟨1, 10, some 0, Deadline.Unreachable⟩, ⟨2, 20, none, Deadline.Unreachable⟩],
            none⟩ : BoundedQueue Int).SetMaxLength 5).1.blocked_pushers
        = [⟨1, 10, some 0, Deadline.Unreachable⟩] :=
  ⟨((set_max_length_wakes_in_order
      (⟨[], 0, 0, 1, false, true,
        [⟨1, 10, none, Deadline.Unreachable⟩, ⟨2, 20, none, Deadline.Unreachable⟩,
          ⟨3, 30, none, Deadline.Unreachable⟩], none⟩ : BoundedQueue Int)
      2 0 0 0 0 Deadline.Unreachable Deadline.Unreachable [] []
      ⟨0, 0, none, Deadline.Unreachable⟩).2.2.2.2.2.1 rfl (by decide)
      (by decide)).1,
    ((((set_max_length_wakes_in_order
      (⟨[], 0, 0, 1, false, true,
        [⟨1, 10, some 0, Deadline.Unreachable⟩, ⟨2, 20, none, Deadline.Unreachable⟩],
          none⟩ : BoundedQueue Int)
      5 0 0 0 0 Deadline.Unreachable Deadline.Unreachable
      [⟨1, 10, some 0, Deadline.Unreachable⟩] []
      ⟨2, 20, none, Deadline.Unreachable⟩).2.2.2.2.2.2.2.1 rfl (by decide) rfl).1
      (by decide)).1).trans (by decide),
    by decide⟩

/-- C14: a `Push` whose deadline elapses while the queue is at its limit
returns false and is all-or-nothing. On a queue with a live consumer that is at
its limit (`n >= L`), a `Push` of `v` whose deadline has not elapsed suspends
and enqueues nothing. When the deadline timer then fires, that call returns
false, the entries and `Size()` are unchanged, and the queue is in exactly the
state it would be in had the push never been made, so every later run (limit
increases, pops, anything) is the run of a queue that never saw the value. The
same holds for a blocked push at any place of the wait list, whatever happened
since it blocked. A `Push` whose deadline has already elapsed at the call
returns false at once and changes nothing. -/
theorem timed_out_push_enqueues_nothing (q : BoundedQueue T) (now now' task : Nat) (v : T)
    (d : Deadline) (ops : List (Op T)) (pre post : List (BlockedPush T)) (w : BlockedPush T)
    (hc : q.consumer_alive = true) (hfull : q.L ≤ q.n) :
    (d.IsReached now = false →
        q.Push now task v d
          = ⟨{ q with blocked_pushers := q.blocked_pushers ++ [⟨task, v, none, d⟩] },
              PushResult.suspended, []⟩)
      ∧ (d.IsReached now' = true →
          (({ q with blocked_pushers := q.blocked_pushers ++ [⟨task, v, none, d⟩] } :
              BoundedQueue T).DeadlineTimer now').2
              = (q.DeadlineTimer now').2 ++ [⟨task, v, false⟩]
            ∧ (({ q with blocked_pushers := q.blocked_pushers ++ [⟨task, v, none, d⟩] } :
              BoundedQueue T).DeadlineTimer now').1 = (q.DeadlineTimer now').1
            ∧ (q.DeadlineTimer now').1.entries = q.entries
            ∧ (q.DeadlineTimer now').1.Size = q.Size
            ∧ (({ q with blocked_pushers := q.blocked_pushers ++ [⟨task, v, none, d⟩] } :
              BoundedQueue T).DeadlineTimer now').1.run ops = (q.DeadlineTimer now').1.run ops)
      ∧ (q.blocked_pushers = pre ++ w :: post → w.deadline.IsReached now' = true →
          (q.DeadlineTimer now').1
              = (({ q with blocked_pushers := pre ++ post } : BoundedQueue T).DeadlineTimer
                  now').1
            ∧ (⟨w.task, w.value, false⟩ : Done T) ∈ (q.DeadlineTimer now').2)
      ∧ (d.IsReached now' = true → q.Push now' task v d = ⟨q, PushResult.returned false, []⟩) := by
  have hlt : ¬ q.n < q.L := by omega
  refine ⟨?_, ?_, ?_, ?_⟩
  · intro hd
    simp [Push, PushImpl, Evaluate, hc, hlt, hd]
  · intro hd
    have hstate : (({ q with blocked_pushers := q.blocked_pushers ++ [⟨task, v, none, d⟩] } :
        BoundedQueue T).DeadlineTimer now').1 = (q.DeadlineTimer now').1 := by
      simp [DeadlineTimer, List.filter_append, hd]
    refine ⟨?_, hstate, rfl, rfl, ?_⟩
    · simp [DeadlineTimer, List.filter_append, hd]
    · rw [hstate]
  · intro hq hd
    constructor
    · simp [DeadlineTimer, hq, List.filter_append, List.filter_cons, hd]
    · simp only [DeadlineTimer, hq, List.mem_map, List.mem_filter, List.mem_append,
        List.mem_cons]
      exact ⟨w, ⟨Or.inr (Or.inl rfl), hd⟩, rfl⟩
  · intro hd
    simp [Push, PushImpl, Evaluate, hc, hlt, hd]

/-- Witness of C14: the first push of the test `MaxLengthOverrideBlocking`:
`L = 0`, `Push(1)` with deadline 10 blocks, the timer fires at 10; after
`SetMaxLength(1)` and a pop nothing has been admitted or popped. -/
theorem timed_out_push_enqueues_nothing_witness :
    popped ((((⟨[], 0, 0, 1, false, true, [⟨1, 1, none, ⟨some 10⟩⟩], none⟩ :
        BoundedQueue Int).DeadlineTimer 10).1.run [Op.SetMaxLength 1, Op.PopNoblock]).2)
      = [] :=
  (congrArg (fun r => popped r.2)
    ((timed_out_push_enqueues_nothing
      (⟨[], 0, 0, 1, false, true, [], none⟩ : BoundedQueue Int) 0 10 1 1 ⟨some 10⟩
      [Op.SetMaxLength 1, Op.PopNoblock] [] [] ⟨0, 0, none, Deadline.Unreachable⟩ rfl
      (by decide)).2.1 (by decide)).2.2.2.2).trans (by decide)

end BoundedQueue

end engine
